import Mathlib

/-!
Shallow embedding of `src/src/kcp.rs` (kcp-rs): the KCP protocol control block.

Modelling conventions:
* bytes are `List ℕ` with values below 256;
* Rust `u32` fields are `ℕ`, and every `u32` addition / multiplication that can
  overflow is truncated with `w32` (release-mode wrapping semantics);
* fallible operations return `Except ℤ _` carrying the Rust error code,
  paired with the (possibly partially mutated) control block, since the Rust
  methods take `&mut self`;
* the egress sink of `ikcp_flush` is a parameter `List ℕ → Bool` saying whether
  a given `write_all` succeeds; the `.unwrap()` on a failed write is modelled
  as `Except.error ()` (the panic aborts the flush);
* the `BytesMut` staging buffer is a byte list plus a tracked capacity
  `bufcap`; `put` grows the capacity amortized-doubling style when the data no
  longer fits (the concrete scenarios below never trigger a grow, so the exact
  growth policy is irrelevant to every theorem in this file).
-/

set_option linter.unusedVariables false

deriving instance DecidableEq for Except

namespace KcpRs

/-- Truncation to 32 bits: the wrap-around of Rust `u32` arithmetic. -/
def w32 (n : ℕ) : ℕ := n % 4294967296

/-- Wrapping `u32` subtraction (`a.wrapping_sub b` for `b < 2^32`). -/
def wsub (a b : ℕ) : ℕ := w32 (a + 4294967296 - b)

-- constants of kcp.rs
def IKCP_RTO_NDL : ℕ := 30
def IKCP_RTO_MIN : ℕ := 100
def IKCP_RTO_DEF : ℕ := 200
def IKCP_RTO_MAX : ℕ := 60000
def IKCP_CMD_PUSH : ℕ := 81
def IKCP_CMD_ACK : ℕ := 82
def IKCP_CMD_WASK : ℕ := 83
def IKCP_CMD_WINS : ℕ := 84
def IKCP_ASK_SEND : ℕ := 1
def IKCP_ASK_TELL : ℕ := 2
def IKCP_WND_SND : ℕ := 32
def IKCP_WND_RCV : ℕ := 128
def IKCP_MTU_DEF : ℕ := 1400
def IKCP_INTERVAL : ℕ := 100
def IKCP_OVERHEAD : ℕ := 24
def IKCP_THRESH_INIT : ℕ := 2
def IKCP_THRESH_MIN : ℕ := 2
def IKCP_PROBE_INIT : ℕ := 7000
def IKCP_PROBE_LIMIT : ℕ := 120000

/-- `struct Segment` of kcp.rs.  `data` is the payload byte vector. -/
structure Segment where
  conv : ℕ
  cmd : ℕ
  frg : ℕ
  wnd : ℕ
  ts : ℕ
  sn : ℕ
  una : ℕ
  len : ℕ
  resendts : ℕ
  rto : ℕ
  fastack : ℕ
  xmit : ℕ
  data : List ℕ
  deriving DecidableEq, Repr

/-- `Segment::default()`. -/
def Segment.default : Segment :=
  { conv := 0, cmd := 0, frg := 0, wnd := 0, ts := 0, sn := 0, una := 0, len := 0,
    resendts := 0, rto := 0, fastack := 0, xmit := 0, data := [] }

def u32le (n : ℕ) : List ℕ :=
  [n % 256, n / 256 % 256, n / 65536 % 256, n / 16777216 % 256]

def u16le (n : ℕ) : List ℕ := [n % 256, n / 256 % 256]

/-- `Segment::encode`: 24-byte little-endian header followed by the payload. -/
def encodeSeg (s : Segment) : List ℕ :=
  u32le s.conv ++ [s.cmd % 256] ++ [s.frg % 256] ++ u16le s.wnd ++ u32le s.ts ++
    u32le s.sn ++ u32le s.una ++ u32le s.len ++ s.data

def u8at (b : List ℕ) (i : ℕ) : ℕ := b.getD i 0

def u16at (b : List ℕ) (i : ℕ) : ℕ := u8at b i + 256 * u8at b (i + 1)

def u32at (b : List ℕ) (i : ℕ) : ℕ :=
  u8at b i + 256 * u8at b (i + 1) + 65536 * u8at b (i + 2) + 16777216 * u8at b (i + 3)

/-- `struct Kcp<W>` of kcp.rs, with the `BytesMut` staging buffer modelled as a
byte list `buffer` plus its tracked capacity `bufcap`.  The output sink `W` is
not part of the state; `ikcp_flush` takes it as a parameter. -/
structure Kcp where
  conv : ℕ
  mtu : ℕ
  mss : ℕ
  snd_una : ℕ
  snd_nxt : ℕ
  rcv_nxt : ℕ
  ssthresh : ℕ
  rx_rttval : ℕ
  rx_srtt : ℕ
  rx_rto : ℕ
  rx_minrto : ℕ
  snd_wnd : ℕ
  rcv_wnd : ℕ
  rmt_wnd : ℕ
  cwnd : ℕ
  probe : ℕ
  current : ℕ
  interval : ℕ
  ts_flush : ℕ
  xmit : ℕ
  nodelay : Bool
  updated : Bool
  ts_probe : ℕ
  probe_wait : ℕ
  incr : ℕ
  snd_queue : List Segment
  rcv_queue : List Segment
  snd_buf : List Segment
  rcv_buf : List Segment
  acklist : List (ℕ × ℕ)
  buffer : List ℕ
  bufcap : ℕ
  fastresend : ℕ
  nocwnd : Bool
  stream : Bool
  deriving DecidableEq, Repr

/-- `Kcp::ickp_create` (the constructor keeps its source-file spelling). -/
def ickp_create (conv : ℕ) : Kcp :=
  { conv := conv, mtu := IKCP_MTU_DEF, mss := IKCP_MTU_DEF - IKCP_OVERHEAD,
    snd_una := 0, snd_nxt := 0, rcv_nxt := 0, ssthresh := IKCP_THRESH_INIT,
    rx_rttval := 0, rx_srtt := 0, rx_rto := IKCP_RTO_DEF, rx_minrto := IKCP_RTO_MIN,
    snd_wnd := IKCP_WND_SND, rcv_wnd := IKCP_WND_RCV, rmt_wnd := IKCP_WND_RCV,
    cwnd := 0, probe := 0, current := 0, interval := IKCP_INTERVAL,
    ts_flush := IKCP_INTERVAL, xmit := 0, nodelay := false, updated := false,
    ts_probe := 0, probe_wait := 0, incr := 0, snd_queue := [], rcv_queue := [],
    snd_buf := [], rcv_buf := [], acklist := [], buffer := [],
    bufcap := (IKCP_MTU_DEF + IKCP_OVERHEAD) * 3,
    fastresend := 0, nocwnd := false, stream := false }

/-- `fn ibound(lower, middle, upper)`. -/
def ibound (lower middle upper : ℕ) : ℕ := min (max lower middle) upper

/-- `fn diff(later, earlier) -> i64`: both `u32` arguments are widened to `i64`
and subtracted exactly (no 32-bit wrap handling). -/
def diff (later earlier : ℕ) : ℤ := (later : ℤ) - (earlier : ℤ)

/-- `sn` of the head of a segment list, or the default `d` when empty. -/
def headSn (l : List Segment) (d : ℕ) : ℕ :=
  match l.head? with
  | some x => x.sn
  | none => d

/-- `ikcp_shrink_buf`: `snd_una` becomes the head `sn` of `snd_buf`, or
`snd_nxt` when the buffer is empty. -/
def ikcp_shrink_buf (k : Kcp) : Kcp :=
  { k with snd_una := headSn k.snd_buf k.snd_nxt }

/-- the prefix removal of `ikcp_parse_una`: drop the longest prefix with
`sn < una`. -/
def unaDrop (una : ℕ) (l : List Segment) : List Segment :=
  l.dropWhile (fun s => decide (s.sn < una))

/-- `ikcp_parse_una`: drop the longest prefix of `snd_buf` with `sn < una`. -/
def ikcp_parse_una (k : Kcp) (una : ℕ) : Kcp :=
  { k with snd_buf := unaDrop una k.snd_buf }

/-- scan of `ikcp_parse_ack`: remove the first entry whose `sn` matches,
stopping early at the first entry with a larger `sn`. -/
def ikcp_parse_ack_go (sn : ℕ) : List Segment → List Segment
  | [] => []
  | s :: rest =>
    if sn = s.sn then rest
    else if sn < s.sn then s :: rest
    else s :: ikcp_parse_ack_go sn rest

/-- `ikcp_parse_ack` (the out-of-range guard returns `snd_buf` untouched). -/
def ikcp_parse_ack (k : Kcp) (sn : ℕ) : Kcp :=
  { k with
    snd_buf :=
      if sn < k.snd_una ∨ sn ≥ k.snd_nxt then k.snd_buf
      else ikcp_parse_ack_go sn k.snd_buf }

/-- scan of `ikcp_parse_fastack`: bump `fastack` of every entry strictly below
`sn`, stopping at the first entry with a larger `sn`. -/
def ikcp_parse_fastack_go (sn : ℕ) : List Segment → List Segment
  | [] => []
  | s :: rest =>
    if sn < s.sn then s :: rest
    else if sn ≠ s.sn then
      { s with fastack := w32 (s.fastack + 1) } :: ikcp_parse_fastack_go sn rest
    else s :: ikcp_parse_fastack_go sn rest

/-- `ikcp_parse_fastack` (the out-of-range guard returns `snd_buf` untouched). -/
def ikcp_parse_fastack (k : Kcp) (sn : ℕ) : Kcp :=
  { k with
    snd_buf :=
      if sn < k.snd_una ∨ sn ≥ k.snd_nxt then k.snd_buf
      else ikcp_parse_fastack_go sn k.snd_buf }

/-- `ikcp_update_ack`: Jacobson/Karn RTT estimator, all in integer ms.  The
pair holds the new `(rx_srtt, rx_rttval)`. -/
def ikcp_update_ack (k : Kcp) (rtt : ℕ) : Kcp :=
  let sv : ℕ × ℕ :=
    if k.rx_srtt = 0 then (rtt, rtt / 2)
    else
      let delta := if rtt > k.rx_srtt then rtt - k.rx_srtt else k.rx_srtt - rtt
      let rttval := w32 (3 * k.rx_rttval + delta) / 4
      let srtt0 := w32 (7 * k.rx_srtt + rtt) / 8
      (if srtt0 < 1 then 1 else srtt0, rttval)
  let rto := w32 (sv.1 + max k.interval (w32 (4 * sv.2)))
  { k with
    rx_srtt := sv.1
    rx_rttval := sv.2
    rx_rto := ibound k.rx_minrto rto IKCP_RTO_MAX }

/-- promotion loop shared by `ikcp_parse_data` and `ikcp_recv`: number of
leading `rcv_buf` entries moved to `rcv_queue`, together with the final
`rcv_nxt`. -/
def promoteCount : List Segment → ℕ → ℕ → ℕ → ℕ × ℕ
  | [], nxt, _, _ => (0, nxt)
  | s :: rest, nxt, nque, wndv =>
    if s.sn = nxt ∧ nque < wndv then
      let p := promoteCount rest (w32 (nxt + 1)) (nque + 1) wndv
      (p.1 + 1, p.2)
    else (0, nxt)

/-- move available data from `rcv_buf` to `rcv_queue` (the block that ends both
`ikcp_parse_data` and `ikcp_recv`). -/
def kcpPromote (k : Kcp) : Kcp :=
  let p := promoteCount k.rcv_buf k.rcv_nxt k.rcv_queue.length k.rcv_wnd
  { k with rcv_queue := k.rcv_queue ++ k.rcv_buf.take p.1,
           rcv_buf := k.rcv_buf.drop p.1,
           rcv_nxt := p.2 }

/-- reverse scan of `ikcp_parse_data`: starting index is the buffer length,
decremented while the scanned entry has a smaller `sn`; reports a duplicate. -/
def scanRev (sn : ℕ) : List Segment → ℕ → Bool × ℕ
  | [], idx => (false, idx)
  | s :: rest, idx =>
    if sn = s.sn then (true, idx)
    else if sn > s.sn then (false, idx)
    else scanRev sn rest (idx - 1)

/-- `ikcp_parse_data`. -/
def ikcp_parse_data (k : Kcp) (newseg : Segment) : Kcp :=
  let sn := newseg.sn
  if sn ≥ w32 (k.rcv_nxt + k.rcv_wnd) ∨ sn < k.rcv_nxt then k
  else
    let r := scanRev sn k.rcv_buf.reverse k.rcv_buf.length
    let k1 := if r.1 then k else { k with rcv_buf := k.rcv_buf.insertIdx r.2 newseg }
    kcpPromote k1

/-- payload sum of `ikcp_peeksize` (`length += seg.len` up to the first
`frg == 0`, with `u32` wrap). -/
def peekSum : List Segment → ℕ
  | [] => 0
  | s :: rest => if s.frg = 0 then s.len else w32 (s.len + peekSum rest)

/-- `ikcp_peeksize`. -/
def ikcp_peeksize (k : Kcp) : Except ℤ ℕ :=
  match k.rcv_queue with
  | [] => .error (-1)
  | seg :: _ =>
    if seg.frg = 0 then .ok seg.len
    else if k.rcv_queue.length < seg.frg + 1 then .error (-1)
    else .ok (peekSum k.rcv_queue)

/-- number of `rcv_queue` entries drained by one `ikcp_recv` (through the first
`frg == 0`). -/
def recvSegCount : List Segment → ℕ
  | [] => 0
  | s :: rest => if s.frg = 0 then 1 else 1 + recvSegCount rest

/-- bytes copied to the caller by one `ikcp_recv`. -/
def recvDataLen : List Segment → ℕ
  | [] => 0
  | s :: rest => if s.frg = 0 then s.data.length else s.data.length + recvDataLen rest

/-- `ikcp_recv` with the caller's buffer abstracted to its size. -/
def ikcp_recv (k : Kcp) (buflen : ℕ) : Kcp × Except ℤ ℕ :=
  if k.rcv_queue = [] then (k, .error (-1))
  else
    match ikcp_peeksize k with
    | .error _ => (k, .error (-1))
    | .ok peeksize =>
      if peeksize > buflen then (k, .error (-1))
      else
        let recover := k.rcv_queue.length ≥ k.rcv_wnd
        if recvDataLen k.rcv_queue > buflen then (k, .error (-1))
        else
          let index := recvSegCount k.rcv_queue
          let written := recvDataLen k.rcv_queue
          let k1 := { k with rcv_queue := k.rcv_queue.drop index }
          let k2 := kcpPromote k1
          let k3 :=
            if k2.rcv_queue.length < k2.rcv_wnd ∧ recover then
              { k2 with probe := k2.probe ||| IKCP_ASK_TELL }
            else k2
          (k3, .ok written)

/-- fragmenting loop of `ikcp_send`: `n` iterations left, `frg` counts down
(`count - i - 1` in message mode, `0` in stream mode). -/
def sendFrags (k : Kcp) : ℕ → List ℕ → Kcp × List ℕ
  | 0, rest => (k, rest)
  | m + 1, rest =>
    let size := min k.mss rest.length
    let seg : Segment :=
      { Segment.default with
        len := size
        data := rest.take size
        frg := if ¬ k.stream then m else 0 }
    sendFrags { k with snd_queue := k.snd_queue ++ [seg] } m (rest.drop size)

/-- `ikcp_send`. -/
def ikcp_send (k : Kcp) (buf : List ℕ) : Kcp × Except ℤ ℕ :=
  let n := buf.length
  if n = 0 then (k, .error (-1))
  else
    let topup : Kcp × List ℕ :=
      if k.stream then
        match k.snd_queue.getLast? with
        | some seg =>
          if seg.data.length < k.mss then
            let l := seg.data.length
            let new_len := min (l + n) k.mss
            let seg1 := { seg with data := seg.data ++ buf.take (new_len - l), frg := 0 }
            ({ k with snd_queue := k.snd_queue.dropLast ++ [seg1] }, buf.drop (new_len - l))
          else (k, buf)
        | none => (k, buf)
      else (k, buf)
    let k1 := topup.1
    let rest := topup.2
    if rest = [] then (k1, .ok 1)
    else
      let count := if rest.length ≤ k1.mss then 1 else (rest.length + k1.mss - 1) / k1.mss
      if count > 255 then (k1, .error (-1))
      else
        let p := sendFrags k1 count rest
        (p.1, .ok (n - p.2.length))

/-- the RTT sampling step of the `IKCP_CMD_ACK` branch: feed
`rtt = current - ts` to the estimator when it is non-negative (the cast to
`u32` truncates). -/
def ackRtt (k1 : Kcp) (ts : ℕ) : Kcp :=
  if diff k1.current ts ≥ 0 then ikcp_update_ack k1 (w32 (diff k1.current ts).toNat) else k1

/-- the `IKCP_CMD_ACK` branch of the input loop, applied after
`parse_una`/`shrink_buf`: RTT sample (when `current - ts ≥ 0`), `parse_ack`,
`shrink_buf`. -/
def ackBranchK (k1 : Kcp) (ts sn : ℕ) : Kcp :=
  ikcp_shrink_buf (ikcp_parse_ack (ackRtt k1 ts) sn)

/-- the `IKCP_CMD_PUSH` branch of the input loop, applied after
`parse_una`/`shrink_buf`: in-window segments are acknowledged and (when also
`sn ≥ rcv_nxt`) their payload is consumed and fed to `parse_data`.  Returns
the control block and the remaining bytes. -/
def pushBranch (k1 : Kcp) (conv cmd frg wnd ts sn una len : ℕ) (rest : List ℕ) :
    Kcp × List ℕ :=
  if sn < w32 (k1.rcv_nxt + k1.rcv_wnd) then
    let k2 := { k1 with acklist := k1.acklist ++ [(sn, ts)] }
    if sn ≥ k2.rcv_nxt then
      let seg : Segment :=
        { conv := conv, cmd := cmd, frg := frg, wnd := wnd, ts := ts,
          sn := sn, una := una, len := len, resendts := 0, rto := 0,
          fastack := 0, xmit := 0, data := rest.take len }
      (ikcp_parse_data k2 seg, rest.drop len)
    else (k2, rest)
  else (k1, rest)

/-- segment-parsing loop of `ikcp_input`, returning the control block, the
`flag`/`maxack` pair, the unconsumed bytes and an error code if the loop bailed
out.  Note the faithful quirk: the payload of an ACK/WASK/WINS segment, or of a
PUSH segment whose `sn` is outside the receive window, is never consumed.
The `fuel` argument only bounds the number of iterations so the recursion is
structural; every iteration consumes at least 24 bytes, so any
`fuel ≥ b.length` gives the loop's true result (`inputLoop_fuel` below). -/
def inputLoop : ℕ → Kcp → Bool → ℕ → List ℕ → Kcp × Bool × ℕ × List ℕ × Option ℤ
  | 0, k, flag, maxack, b => (k, flag, maxack, b, none)
  | fuel + 1, k, flag, maxack, b =>
  if b.length < 24 then (k, flag, maxack, b, none)
  else
    let conv := u32at b 0
    if conv ≠ k.conv then (k, flag, maxack, b, some (-1))
    else
      let cmd := u8at b 4
      let frg := u8at b 5
      let wnd := u16at b 6
      let ts := u32at b 8
      let sn := u32at b 12
      let una := u32at b 16
      let len := u32at b 20
      let rest := b.drop 24
      if rest.length < len then (k, flag, maxack, b, some (-1))
      else if cmd ≠ IKCP_CMD_PUSH ∧ cmd ≠ IKCP_CMD_ACK ∧ cmd ≠ IKCP_CMD_WASK ∧
          cmd ≠ IKCP_CMD_WINS then (k, flag, maxack, b, some (-1))
      else
        let k1 := ikcp_shrink_buf (ikcp_parse_una { k with rmt_wnd := wnd } una)
        if cmd = IKCP_CMD_ACK then
          let fm : Bool × ℕ :=
            if flag then (true, if sn > maxack then sn else maxack) else (true, sn)
          inputLoop fuel (ackBranchK k1 ts sn) fm.1 fm.2 rest
        else if cmd = IKCP_CMD_PUSH then
          let p := pushBranch k1 conv cmd frg wnd ts sn una len rest
          inputLoop fuel p.1 flag maxack p.2
        else if cmd = IKCP_CMD_WASK then
          inputLoop fuel { k1 with probe := k1.probe ||| IKCP_ASK_TELL } flag maxack rest
        else inputLoop fuel k1 flag maxack rest

/-- congestion-window growth at the end of `ikcp_input` (runs when `snd_una`
advanced past its value `old_una` from before the parsing loop).  The pair
holds the new `(cwnd, incr)`. -/
def inputCwnd (old_una : ℕ) (k2 : Kcp) : Kcp :=
  let ci : ℕ × ℕ :=
    if k2.snd_una > old_una ∧ k2.cwnd < k2.rmt_wnd then
      let mss := k2.mss
      let p0 : ℕ × ℕ :=
        if k2.cwnd < k2.ssthresh then (w32 (k2.cwnd + 1), w32 (k2.incr + mss))
        else
          let incr0 := if k2.incr < mss then mss else k2.incr
          let incr1 := w32 (incr0 + w32 (mss * mss) / incr0 + mss / 16)
          (if w32 ((k2.cwnd + 1) * mss) ≤ incr1 then w32 (k2.cwnd + 1) else k2.cwnd, incr1)
      if p0.1 > k2.rmt_wnd then (k2.rmt_wnd, w32 (k2.rmt_wnd * mss)) else p0
    else (k2.cwnd, k2.incr)
  { k2 with cwnd := ci.1, incr := ci.2 }

/-- `ikcp_input`.  Returns the mutated control block together with the result
(`Ok(consumed)` or the error code). -/
def ikcp_input (k : Kcp) (b : List ℕ) : Kcp × Except ℤ ℕ :=
  if b.length < 24 then (k, .error (-1))
  else
    let old_una := k.snd_una
    match inputLoop b.length k false 0 b with
    | (k1, _, _, _, some e) => (k1, .error e)
    | (k1, flag, maxack, leftover, none) =>
      let k2 := if flag then ikcp_parse_fastack k1 maxack else k1
      (inputCwnd old_una k2, .ok (b.length - leftover.length))

/-- `ikcp_wnd_unused` (result is cast to `u16`). -/
def ikcp_wnd_unused (k : Kcp) : ℕ :=
  if k.rcv_queue.length < k.rcv_wnd then (k.rcv_wnd - k.rcv_queue.length) % 65536 else 0

/-- local state of one `ikcp_flush` run: the control block, the mutable
template segment `seg`, and the datagrams handed to the egress sink so far. -/
structure FlushSt where
  k : Kcp
  seg : Segment
  writes : List (List ℕ)
  deriving DecidableEq, Repr

/-- `BytesMut` capacity after appending `add` bytes to a buffer holding `len`
bytes: unchanged while the data fits, otherwise an amortized-doubling grow. -/
def growCap (cap len add : ℕ) : ℕ :=
  if len + add ≤ cap then cap else max (2 * cap) (len + add)

/-- `seg.encode(&mut self.buffer)`. -/
def putSeg (k : Kcp) (s : Segment) : Kcp :=
  { k with
    buffer := k.buffer ++ encodeSeg s
    bufcap := growCap k.bufcap k.buffer.length (encodeSeg s).length }

/-- `self.output.write_all(&self.buffer).unwrap(); self.buffer.clear();`
`write_all` performs no write call on an empty buffer; a failed write panics
(modelled as `Except.error ()`). -/
def shipStep (sink : List ℕ → Bool) (st : FlushSt) : Except Unit FlushSt :=
  if st.k.buffer = [] then .ok st
  else if sink st.k.buffer then
    .ok { st with
          writes := st.writes ++ [st.k.buffer]
          k := { st.k with buffer := [] } }
  else .error ()

/-- the buffer-occupancy test guarding every ship in `ikcp_flush`; note the
source compares the *remaining capacity* `capacity() - len()` (not the
occupied size) against the MTU. -/
def shipCond (k : Kcp) (extra : ℕ) : Bool :=
  decide ((k.bufcap - k.buffer.length) + IKCP_OVERHEAD + extra > k.mtu)

/-- ACK pass of `ikcp_flush`: one header per pending `(sn, ts)`. -/
def ackLoop (sink : List ℕ → Bool) : List (ℕ × ℕ) → FlushSt → Except Unit FlushSt
  | [], st => .ok st
  | a :: rest, st =>
    match (if shipCond st.k 0 then shipStep sink st else .ok st) with
    | .error e => .error e
    | .ok st1 =>
      let seg1 := { st1.seg with sn := a.1, ts := a.2 }
      ackLoop sink rest { k := putSeg st1.k seg1, seg := seg1, writes := st1.writes }

/-- window-probe scheduling block of `ikcp_flush`. -/
def probePhase (k : Kcp) : Kcp :=
  if k.rmt_wnd = 0 then
    if k.probe_wait = 0 then
      { k with probe_wait := IKCP_PROBE_INIT, ts_probe := w32 (k.current + IKCP_PROBE_INIT) }
    else
      if diff k.current k.ts_probe ≥ 0 then
        let pw0 := if k.probe_wait < IKCP_PROBE_INIT then IKCP_PROBE_INIT else k.probe_wait
        let pw1 := w32 (pw0 + pw0 / 2)
        let pw2 := if pw1 > IKCP_PROBE_LIMIT then IKCP_PROBE_LIMIT else pw1
        { k with probe_wait := pw2, ts_probe := w32 (k.current + pw2), probe := k.probe ||| IKCP_ASK_SEND }
      else k
  else { k with ts_probe := 0, probe_wait := 0 }

/-- emit a `IKCP_CMD_WASK` probe when `probe & IKCP_ASK_SEND` is set. -/
def waskPhase (sink : List ℕ → Bool) (st : FlushSt) : Except Unit FlushSt :=
  if st.k.probe &&& IKCP_ASK_SEND ≠ 0 then
    let st0 : FlushSt := { st with seg := { st.seg with cmd := IKCP_CMD_WASK } }
    match (if shipCond st0.k 0 then shipStep sink st0 else .ok st0) with
    | .error e => .error e
    | .ok st1 => .ok { st1 with k := putSeg st1.k st1.seg }
  else .ok st

/-- emit a `IKCP_CMD_WINS` announcement when `probe & IKCP_ASK_TELL` is set. -/
def winsPhase (sink : List ℕ → Bool) (st : FlushSt) : Except Unit FlushSt :=
  if st.k.probe &&& IKCP_ASK_TELL ≠ 0 then
    let st0 : FlushSt := { st with seg := { st.seg with cmd := IKCP_CMD_WINS } }
    match (if shipCond st0.k 0 then shipStep sink st0 else .ok st0) with
    | .error e => .error e
    | .ok st1 => .ok { st1 with k := putSeg st1.k st1.seg }
  else .ok st

/-- `while diff(snd_nxt, snd_una + cwnd) < 0` move `snd_queue` → `snd_buf`.
The first argument structurally mirrors `k.snd_queue` (the loop pops its
head each iteration), so the recursion is structural. -/
def promoteGo (cwnd0 segwnd : ℕ) : List Segment → Kcp → Kcp
  | [], k => k
  | s :: rest, k =>
    if diff k.snd_nxt (w32 (k.snd_una + cwnd0)) < 0 then
      let news : Segment :=
        { s with
          conv := k.conv
          cmd := IKCP_CMD_PUSH
          wnd := segwnd
          ts := k.current
          sn := k.snd_nxt
          una := k.rcv_nxt
          resendts := k.current
          rto := k.rx_rto
          fastack := 0
          xmit := 0 }
      promoteGo cwnd0 segwnd rest
        { k with
          snd_queue := rest
          snd_buf := k.snd_buf ++ [news]
          snd_nxt := w32 (k.snd_nxt + 1) }
    else k

/-- `while diff(snd_nxt, snd_una + cwnd) < 0` move `snd_queue` → `snd_buf`. -/
def promoteLoop (cwnd0 segwnd : ℕ) (k : Kcp) : Kcp :=
  promoteGo cwnd0 segwnd k.snd_queue k

/-- transmit pass of `ikcp_flush` over `snd_buf`: first transmissions, timeout
retransmissions and fast retransmissions.  Returns the updated flush state, the
rewritten `snd_buf` and the `lost`/`change` flags. -/
def txLoop (sink : List ℕ → Bool) (resent rtomin : ℕ) :
    List Segment → List Segment → Bool → Bool → FlushSt →
    Except Unit (FlushSt × List Segment × Bool × Bool)
  | done, [], lost, change, st => .ok (st, done, lost, change)
  | done, s :: todo, lost, change, st =>
    let k := st.k
    let choice : Option (Segment × Kcp × Bool × Bool) :=
      if s.xmit = 0 then
        some ({ s with
                xmit := w32 (s.xmit + 1)
                rto := k.rx_rto
                resendts := w32 (k.current + k.rx_rto + rtomin) }, k, lost, change)
      else if diff k.current s.resendts ≥ 0 then
        let newrto := w32 (s.rto + (if ¬ k.nodelay then k.rx_rto else k.rx_rto / 2))
        some ({ s with
                xmit := w32 (s.xmit + 1)
                rto := newrto
                resendts := w32 (k.current + newrto) },
              { k with xmit := w32 (k.xmit + 1) }, true, change)
      else if s.fastack ≥ resent then
        some ({ s with
                xmit := w32 (s.xmit + 1)
                fastack := 0
                resendts := w32 (k.current + s.rto) }, k, lost, true)
      else none
    match choice with
    | none => txLoop sink resent rtomin (done ++ [s]) todo lost change st
    | some (s1, k1, lost1, change1) =>
      let s2 := { s1 with ts := k1.current, wnd := st.seg.wnd, una := k1.rcv_nxt }
      let st1 : FlushSt := { st with k := k1 }
      match (if shipCond st1.k s2.data.length then shipStep sink st1 else .ok st1) with
      | .error e => .error e
      | .ok st2 =>
        txLoop sink resent rtomin (done ++ [s2]) todo lost1 change1
          { st2 with k := putSeg st2.k s2 }

/-- `ikcp_flush`, parameterized by the egress sink.  Returns the control block
and the list of datagrams handed to the sink, or `Except.error ()` when a
failed `write_all` made an `.unwrap()` panic. -/
def ikcp_flush (sink : List ℕ → Bool) (k : Kcp) : Except Unit (Kcp × List (List ℕ)) :=
  if ¬ k.updated then .ok (k, [])
  else
    let seg0 : Segment :=
      { Segment.default with
        conv := k.conv
        cmd := IKCP_CMD_ACK
        wnd := ikcp_wnd_unused k
        una := k.rcv_nxt }
    match ackLoop sink k.acklist { k := k, seg := seg0, writes := [] } with
    | .error e => .error e
    | .ok stA =>
      let stB : FlushSt := { stA with k := probePhase { stA.k with acklist := [] } }
      match waskPhase sink stB with
      | .error e => .error e
      | .ok stC =>
        match winsPhase sink stC with
        | .error e => .error e
        | .ok stD =>
          let kD := { stD.k with probe := 0 }
          let cwnd0 := min kD.snd_wnd kD.rmt_wnd
          let cwnd1 := if ¬ kD.nocwnd then min kD.cwnd cwnd0 else cwnd0
          let kE := promoteLoop cwnd1 stD.seg.wnd kD
          let resent := if kD.fastresend > 0 then kD.fastresend else 4294967295
          let rtomin := if ¬ kD.nodelay then kD.rx_rto / 8 else 0
          match txLoop sink resent rtomin [] kE.snd_buf false false { stD with k := kE } with
          | .error e => .error e
          | .ok (stT, done, lost, change) =>
            match shipStep sink { stT with k := { stT.k with snd_buf := done } } with
            | .error e => .error e
            | .ok stF =>
              let kF := stF.k
              let kG : Kcp :=
                if change then
                  let inflight := wsub kF.snd_nxt kF.snd_una
                  let ss := if inflight / 2 < IKCP_THRESH_MIN then IKCP_THRESH_MIN else inflight / 2
                  { kF with
                    ssthresh := ss
                    cwnd := w32 (ss + resent)
                    incr := w32 (w32 (ss + resent) * kF.mss) }
                else kF
              let kH : Kcp :=
                if lost then
                  let ss := if cwnd1 / 2 < IKCP_THRESH_MIN then IKCP_THRESH_MIN else cwnd1 / 2
                  { kG with ssthresh := ss, cwnd := 1, incr := kG.mss }
                else kG
              let kI := if kH.cwnd < 1 then { kH with cwnd := 1, incr := kH.mss } else kH
              .ok (kI, stF.writes)

/-- the tick bookkeeping of `ikcp_update` before the conditional flush:
returns the control block with `current`, `updated` and `ts_flush` maintained,
plus whether `slap ≥ 0` triggered a flush. -/
def updateStep (k : Kcp) (current : ℕ) : Kcp × Bool :=
  let k1 := { k with current := current }
  let k2 := if ¬ k1.updated then { k1 with updated := true, ts_flush := current } else k1
  let slap0 := diff k2.current k2.ts_flush
  let p : Kcp × ℤ :=
    if slap0 > 10000 ∨ slap0 < -10000 then ({ k2 with ts_flush := k2.current }, 0)
    else (k2, slap0)
  if p.2 ≥ 0 then
    let k3 := { p.1 with ts_flush := w32 (p.1.ts_flush + p.1.interval) }
    let k4 :=
      if diff k3.current k3.ts_flush ≥ 0 then { k3 with ts_flush := w32 (k3.current + k3.interval) }
      else k3
    (k4, true)
  else (p.1, false)

/-- `ikcp_update`, parameterized by the egress sink used for the flush. -/
def ikcp_update (sink : List ℕ → Bool) (k : Kcp) (current : ℕ) :
    Except Unit (Kcp × List (List ℕ)) :=
  if (updateStep k current).2 then ikcp_flush sink (updateStep k current).1
  else .ok ((updateStep k current).1, [])

/-- `ikcp_setmtu`. -/
def ikcp_setmtu (k : Kcp) (mtu : ℕ) : Kcp × Except ℤ Unit :=
  if mtu < 50 ∨ mtu < IKCP_OVERHEAD then (k, .error (-1))
  else ({ k with mtu := mtu, mss := mtu - IKCP_OVERHEAD }, .ok ())

/-- `ikcp_interval`. -/
def ikcp_interval (k : Kcp) (internal : ℕ) : Kcp :=
  { k with interval := if internal > 5000 then 5000 else if internal < 10 then 10 else internal }

/-- `ikcp_nodelay`. -/
def ikcp_nodelay (k : Kcp) (nodelay : Bool) (internal : ℕ) (resend : ℕ) (nc : Bool) : Kcp :=
  { k with
    nodelay := nodelay
    fastresend := resend
    nocwnd := nc
    rx_minrto := if nodelay then IKCP_RTO_NDL else IKCP_RTO_MIN
    interval := if internal > 5000 then 5000 else if internal < 10 then 10 else internal }

/-- `ikcp_wndsize`. -/
def ikcp_wndsize (k : Kcp) (sndwnd rcvwnd : ℕ) : Kcp :=
  let k1 := if sndwnd > 0 then { k with snd_wnd := sndwnd } else k
  if rcvwnd > 0 then
    { k1 with rcv_wnd := if rcvwnd > IKCP_WND_RCV then rcvwnd else IKCP_WND_RCV }
  else k1

/-- `ikcp_waitsnd`. -/
def ikcp_waitsnd (k : Kcp) : ℕ := k.snd_buf.length + k.snd_queue.length

/-- Modelled from the spec: the body of `ikcp_check` is `todo!()` in
`src/src/kcp.rs`, so the deadline computation is taken from §4.10 of the spec:
return the nearer of (a) `ts_flush`, or (b) the earliest `resendts` across
`snd_buf`, bounded by `current + interval`. -/
def ikcp_check (k : Kcp) (current : ℕ) : ℕ :=
  min ((k.snd_buf.map Segment.resendts).foldl min k.ts_flush) (current + k.interval)

/-- an egress sink whose writes always succeed. -/
def okSink : List ℕ → Bool := fun _ => true

/-- an egress sink whose writes always fail. -/
def failSink : List ℕ → Bool := fun _ => false

/-- the control block after `ikcp_flush` against an always-succeeding sink
(such a run never panics, so the `error` arm is vacuous). -/
def flushRun (k : Kcp) : Kcp :=
  match ikcp_flush okSink k with
  | .ok p => p.1
  | .error _ => k

/-- the control block after `ikcp_update` against an always-succeeding sink. -/
def updateRun (k : Kcp) (current : ℕ) : Kcp :=
  match ikcp_update okSink k current with
  | .ok p => p.1
  | .error _ => k

/-- control-block states reachable through the public API of `Kcp`. -/
inductive Reachable : Kcp → Prop
  | create (conv : ℕ) : Reachable (ickp_create conv)
  | recv (k : Kcp) (buflen : ℕ) : Reachable k → Reachable (ikcp_recv k buflen).1
  | send (k : Kcp) (buf : List ℕ) : Reachable k → Reachable (ikcp_send k buf).1
  | input (k : Kcp) (b : List ℕ) : Reachable k → Reachable (ikcp_input k b).1
  | update (k : Kcp) (current : ℕ) : Reachable k → Reachable (updateRun k current)
  | flush (k : Kcp) : Reachable k → Reachable (flushRun k)
  | setmtu (k : Kcp) (mtu : ℕ) : Reachable k → Reachable (ikcp_setmtu k mtu).1
  | interval (k : Kcp) (internal : ℕ) : Reachable k → Reachable (ikcp_interval k internal)
  | nodelay (k : Kcp) (nd : Bool) (internal resend : ℕ) (nc : Bool) :
      Reachable k → Reachable (ikcp_nodelay k nd internal resend nc)
  | wndsize (k : Kcp) (sndwnd rcvwnd : ℕ) : Reachable k → Reachable (ikcp_wndsize k sndwnd rcvwnd)

/-- Modelled from the spec: the wrap-safe signed 32-bit difference of two
32-bit timestamps (the spec's "differences computed as signed 32-bit"):
subtract modulo `2^32` and reinterpret the result as a signed 32-bit value. -/
def specWrapDiff32 (later earlier : ℕ) : ℤ :=
  let d := (later + 4294967296 - earlier) % 4294967296
  if d < 2147483648 then (d : ℤ) else (d : ℤ) - 4294967296

/-- datagrams handed to an always-succeeding sink by one `ikcp_flush`. -/
def flushWrites (k : Kcp) : List (List ℕ) :=
  match ikcp_flush okSink k with
  | .ok p => p.2
  | .error _ => []

/-- datagrams handed to an always-succeeding sink by one `ikcp_update`. -/
def updateWrites (k : Kcp) (current : ℕ) : List (List ℕ) :=
  match ikcp_update okSink k current with
  | .ok p => p.2
  | .error _ => []

/-- forget a segment's `fastack` skip-counter. -/
def eraseFa (s : Segment) : Segment := { s with fastack := 0 }

/-- zero out the RTT-estimator fields and the per-segment `fastack` counters:
the components of the control block that a duplicate ACK delivery is allowed
to touch again in the amended idempotence law. -/
def eraseVolatile (k : Kcp) : Kcp :=
  { k with
    rx_srtt := 0
    rx_rttval := 0
    rx_rto := 0
    snd_buf := k.snd_buf.map eraseFa }

/-- the wire bytes of one well-formed zero-payload ACK segment. -/
def ackBytes (conv wnd ts sn una : ℕ) : List ℕ :=
  encodeSeg
    { Segment.default with
      conv := conv
      cmd := IKCP_CMD_ACK
      wnd := wnd
      ts := ts
      sn := sn
      una := una }

/-- the state transformation `ikcp_input` performs on a datagram that is one
well-formed zero-payload ACK segment: `rmt_wnd` update, `parse_una` +
`shrink_buf`, the RTT sample, `parse_ack` + `shrink_buf`, `parse_fastack`
with `maxack = sn`, then the congestion-window epilogue. -/
def ackAbsorb (k : Kcp) (wnd ts sn una : ℕ) : Kcp :=
  inputCwnd k.snd_una
    (ikcp_parse_fastack
      (ackBranchK (ikcp_shrink_buf (ikcp_parse_una { k with rmt_wnd := wnd } una)) ts sn) sn)

-- concrete scenario states used by the claim theorems below

/-- C1 scenario: queue a 100-byte message at the default MTU, then shrink the
MTU to 50 and tick once so the first flush initializes `cwnd`. -/
def c1state : Kcp :=
  updateRun (ikcp_setmtu ((ikcp_send (ickp_create 0) (List.replicate 100 7)).1) 50).1 0

/-- C2 scenario: one ACK segment with a 1-byte payload (25 bytes on the wire). -/
def c2bytes : List ℕ :=
  encodeSeg { Segment.default with conv := 5, cmd := IKCP_CMD_ACK, len := 1, data := [7] }

/-- C3 scenario: a fresh control block ticked at `current = 100`, so an ACK
carrying `ts = 0` yields a 100 ms RTT sample. -/
def c3base : Kcp := updateRun (ickp_create 5) 100

/-- C5 scenario: a control block with one queued message, ticked once (first
flush sends nothing because `cwnd` starts at 0). -/
def c5state : Kcp := updateRun ((ikcp_send (ickp_create 0) [1, 2, 3]).1) 0

/-- C5 witness state: updated control block with one pending ACK. -/
def c5wit : Kcp := { ickp_create 9 with updated := true, acklist := [(0, 0)] }

/-- C6 scenario: a `snd_buf` segment that has already been transmitted 1000
times and is overdue for retransmission at `current = 500`. -/
def c6state : Kcp :=
  { ickp_create 0 with
    updated := true
    snd_buf := [{ Segment.default with
                  sn := 0
                  len := 3
                  data := [1, 2, 3]
                  xmit := 1000
                  resendts := 0
                  rto := 200 }]
    snd_nxt := 1
    current := 500 }

/-- C7 scenario: stream mode with one 1-byte segment already queued. -/
def c7state : Kcp := (ikcp_send { ickp_create 0 with stream := true } [9]).1

/-- C8 witness state: one in-flight segment whose `resendts` precedes
`ts_flush`. -/
def c8state : Kcp :=
  { ickp_create 0 with ts_flush := 170, snd_buf := [{ Segment.default with resendts := 150 }] }

/-- C9 scenario: enable nodelay (`rx_minrto = 30`, `interval = 10`), absorb a
zero-RTT ACK sample (`rx_rto` becomes 30), then disable nodelay
(`rx_minrto` back to 100 while `rx_rto` stays 30). -/
def c9mid : Kcp :=
  (ikcp_input (ikcp_nodelay (ickp_create 5) true 10 0 false) (ackBytes 5 0 0 0 0)).1

/-- C9 final state: reconfigured back to `nodelay = false`. -/
def c9state : Kcp := ikcp_nodelay c9mid false 100 0 false

/-- C10 witness: state of the parsing loop after fully consuming one ACK
segment. -/
def c10k : Kcp :=
  (inputLoop (ackBytes 5 0 0 0 0).length (ickp_create 5) false 0 (ackBytes 5 0 0 0 0)).1

/-- list-level view of one ACK absorption: `snd_buf` after `parse_una` and the
(guarded) `parse_ack` scan, given the original buffer `l` and `snd_nxt = nx`. -/
def ackB (l : List Segment) (nx sn una : ℕ) : List Segment :=
  let A := unaDrop una l
  if sn < headSn A nx ∨ sn ≥ nx then A else ikcp_parse_ack_go sn A

/-- list-level view of one ACK absorption: the resulting `snd_una`. -/
def ackUa2 (l : List Segment) (nx sn una : ℕ) : ℕ := headSn (ackB l nx sn una) nx

/-- list-level view of one ACK absorption: `snd_buf` after the additional
(guarded) `parse_fastack` scan. -/
def ackC (l : List Segment) (nx sn una : ℕ) : List Segment :=
  if sn < ackUa2 l nx sn una ∨ sn ≥ nx then ackB l nx sn una
  else ikcp_parse_fastack_go sn (ackB l nx sn una)

attribute [ext] Segment Kcp

-- facts about the byte codec

theorem encodeSeg_cons (s : Segment) :
    encodeSeg s =
      s.conv % 256 :: s.conv / 256 % 256 :: s.conv / 65536 % 256 :: s.conv / 16777216 % 256 ::
      s.cmd % 256 :: s.frg % 256 :: s.wnd % 256 :: s.wnd / 256 % 256 ::
      s.ts % 256 :: s.ts / 256 % 256 :: s.ts / 65536 % 256 :: s.ts / 16777216 % 256 ::
      s.sn % 256 :: s.sn / 256 % 256 :: s.sn / 65536 % 256 :: s.sn / 16777216 % 256 ::
      s.una % 256 :: s.una / 256 % 256 :: s.una / 65536 % 256 :: s.una / 16777216 % 256 ::
      s.len % 256 :: s.len / 256 % 256 :: s.len / 65536 % 256 :: s.len / 16777216 % 256 ::
      s.data := by
  simp [encodeSeg, u32le, u16le]

theorem encodeSeg_length (s : Segment) : (encodeSeg s).length = 24 + s.data.length := by
  rw [encodeSeg_cons]
  simp only [List.length_cons]
  omega

theorem encodeSeg_ne_nil (s : Segment) : encodeSeg s ≠ [] := by
  intro h
  have := encodeSeg_length s
  rw [h] at this
  simp only [List.length_nil] at this
  omega

theorem u32at_encode_conv (s : Segment) : u32at (encodeSeg s) 0 = s.conv % 4294967296 := by
  rw [encodeSeg_cons]
  show s.conv % 256 + 256 * (s.conv / 256 % 256) + 65536 * (s.conv / 65536 % 256) +
    16777216 * (s.conv / 16777216 % 256) = s.conv % 4294967296
  omega

theorem u8at_encode_cmd (s : Segment) : u8at (encodeSeg s) 4 = s.cmd % 256 := by
  rw [encodeSeg_cons]; rfl

theorem u8at_encode_frg (s : Segment) : u8at (encodeSeg s) 5 = s.frg % 256 := by
  rw [encodeSeg_cons]; rfl

theorem u16at_encode_wnd (s : Segment) : u16at (encodeSeg s) 6 = s.wnd % 65536 := by
  rw [encodeSeg_cons]
  show s.wnd % 256 + 256 * (s.wnd / 256 % 256) = s.wnd % 65536
  omega

theorem u32at_encode_ts (s : Segment) : u32at (encodeSeg s) 8 = s.ts % 4294967296 := by
  rw [encodeSeg_cons]
  show s.ts % 256 + 256 * (s.ts / 256 % 256) + 65536 * (s.ts / 65536 % 256) +
    16777216 * (s.ts / 16777216 % 256) = s.ts % 4294967296
  omega

theorem u32at_encode_sn (s : Segment) : u32at (encodeSeg s) 12 = s.sn % 4294967296 := by
  rw [encodeSeg_cons]
  show s.sn % 256 + 256 * (s.sn / 256 % 256) + 65536 * (s.sn / 65536 % 256) +
    16777216 * (s.sn / 16777216 % 256) = s.sn % 4294967296
  omega

theorem u32at_encode_una (s : Segment) : u32at (encodeSeg s) 16 = s.una % 4294967296 := by
  rw [encodeSeg_cons]
  show s.una % 256 + 256 * (s.una / 256 % 256) + 65536 * (s.una / 65536 % 256) +
    16777216 * (s.una / 16777216 % 256) = s.una % 4294967296
  omega

theorem u32at_encode_len (s : Segment) : u32at (encodeSeg s) 20 = s.len % 4294967296 := by
  rw [encodeSeg_cons]
  show s.len % 256 + 256 * (s.len / 256 % 256) + 65536 * (s.len / 65536 % 256) +
    16777216 * (s.len / 16777216 % 256) = s.len % 4294967296
  omega

theorem encodeSeg_drop24 (s : Segment) : (encodeSeg s).drop 24 = s.data := by
  rw [encodeSeg_cons]; rfl

-- C1 ----------------------------------------------------------------------

/-- Claim C1: refuted on the code (code bug).  After `ikcp_setmtu` shrinks the
MTU to 50, the very next flush hands the egress sink a single 124-byte
datagram (the stale 100-byte segment plus the 24-byte header), exceeding
`mtu = 50`.  The source's buffer-occupancy test compares the *remaining
capacity* of the staging buffer with the MTU instead of the occupied size, and
no datagram-size bound is enforced at the write. -/
theorem C1_flush_exceeds_mtu :
    c1state.mtu = 50 ∧ (updateWrites c1state 100).map List.length = [124] ∧
      ∃ w ∈ updateWrites c1state 100, c1state.mtu < w.length := by
  decide

-- C2 ----------------------------------------------------------------------

/-- Claim C2: refuted on the code (code bug).  A datagram that is exactly one
well-formed ACK segment with `len = 1` (25 bytes) is accepted, but `ikcp_input`
returns `Ok(24)`: the payload byte of an ACK segment is never consumed, so the
claimed per-segment consumption of `24 + len` bytes fails. -/
theorem C2_ack_payload_not_consumed :
    c2bytes.length = 25 ∧ (ikcp_input (ickp_create 5) c2bytes).2 = .ok 24 := by
  decide

-- C4 ----------------------------------------------------------------------

/-- Claim C4 counterexample: `diff` is the exact `i64` difference of the raw
values, not the wrap-safe signed 32-bit difference: one millisecond tick after
a counter wrap gives `-4294967294` instead of `2`. -/
theorem C4_diff_not_wrap_safe :
    diff 1 4294967295 = -4294967294 ∧ specWrapDiff32 1 4294967295 = 2 ∧
      diff 1 4294967295 ≠ specWrapDiff32 1 4294967295 := by
  decide

/-- Claim C4 amended: for 32-bit inputs, `diff` (used by `ikcp_update`,
`ikcp_flush` and the ACK RTT sampling) agrees with the wrap-safe signed 32-bit
difference exactly when the exact difference lies in `[-2^31, 2^31)`; a wrap of
the 32-bit millisecond counter is not corrected. -/
theorem C4_diff_agrees_iff_no_wrap (later earlier : ℕ)
    (hl : later < 4294967296) (he : earlier < 4294967296) :
    diff later earlier = specWrapDiff32 later earlier ↔
      -2147483648 ≤ diff later earlier ∧ diff later earlier < 2147483648 := by
  unfold diff specWrapDiff32
  dsimp only
  split <;> omega

/-- witness for `C4_diff_agrees_iff_no_wrap` at `later = 5`, `earlier = 3`. -/
theorem C4_diff_agrees_iff_no_wrap_witness :
    diff 5 3 = specWrapDiff32 5 3 ↔
      -2147483648 ≤ diff 5 3 ∧ diff 5 3 < 2147483648 :=
  C4_diff_agrees_iff_no_wrap 5 3 (by decide) (by decide)

-- C6 ----------------------------------------------------------------------

/-- Claim C6: refuted on the code (code bug).  The control block has no
`dead_link` threshold and no connection-dead state flag at all; the transmit
pass of `ikcp_flush` retransmits a segment whose `xmit` is already 1000,
merely bumps it to 1001, and carries on exactly as for any other segment. -/
theorem C6_no_dead_link_flag :
    (flushRun c6state).snd_buf.map Segment.xmit = [1001] ∧
      (flushWrites c6state).map List.length = [27] := by
  decide

-- C7 ----------------------------------------------------------------------

/-- Claim C7: refuted on the code (code bug).  In stream mode, a 5-byte send
that is entirely absorbed by topping up the tail segment of `snd_queue`
returns `Ok(1)` instead of the number of consumed bytes (5): the tail grows
from `[9]` to `[9,1,2,3,4,5]`. -/
theorem C7_stream_topup_returns_one :
    (ikcp_send c7state [1, 2, 3, 4, 5]).2 = .ok 1 ∧
      (ikcp_send c7state [1, 2, 3, 4, 5]).1.snd_queue.map Segment.data = [[9, 1, 2, 3, 4, 5]] := by
  decide

-- C8 ----------------------------------------------------------------------

theorem foldlMin_le_init (l : List ℕ) (a : ℕ) : l.foldl min a ≤ a := by
  induction l generalizing a with
  | nil => exact le_refl a
  | cons x xs ih => exact le_trans (ih (min a x)) (min_le_left a x)

theorem foldlMin_le_mem (l : List ℕ) (a x : ℕ) (hx : x ∈ l) : l.foldl min a ≤ x := by
  induction l generalizing a with
  | nil => cases hx
  | cons y ys ih =>
    rcases List.mem_cons.mp hx with h | h
    · subst h
      exact le_trans (foldlMin_le_init ys (min a x)) (min_le_right a x)
    · exact ih (min a y) h

theorem foldlMin_cases (l : List ℕ) (a : ℕ) : l.foldl min a = a ∨ l.foldl min a ∈ l := by
  induction l generalizing a with
  | nil => left; rfl
  | cons x xs ih =>
    rcases ih (min a x) with h | h
    · rcases min_cases a x with ⟨he, _⟩ | ⟨he, _⟩
      · left; rw [List.foldl_cons, h, he]
      · right; rw [List.foldl_cons, h, he]; exact List.mem_cons_self x xs
    · right; exact List.mem_cons_of_mem x h

/-- Claim C8 (spec-modelled: the body of `ikcp_check` is `todo!()` in the
source, so the deadline is modelled from §4.10 of the spec): `ikcp_check`
returns a value that is at most `current + interval`, at most `ts_flush`, at
most every `resendts` in `snd_buf`, and is equal to one of those candidates —
i.e. the nearer of `ts_flush` and the earliest `resendts`, bounded above by
`current + interval`. -/
theorem C8_check_deadline (k : Kcp) (current : ℕ) :
    ikcp_check k current ≤ current + k.interval ∧
    ikcp_check k current ≤ k.ts_flush ∧
    (∀ s ∈ k.snd_buf, ikcp_check k current ≤ s.resendts) ∧
    (ikcp_check k current = current + k.interval ∨ ikcp_check k current = k.ts_flush ∨
      ∃ s ∈ k.snd_buf, ikcp_check k current = s.resendts) := by
  unfold ikcp_check
  refine ⟨min_le_right _ _, le_trans (min_le_left _ _) (foldlMin_le_init _ _), ?_, ?_⟩
  · intro s hs
    exact le_trans (min_le_left _ _)
      (foldlMin_le_mem _ _ _ (List.mem_map_of_mem Segment.resendts hs))
  · rcases le_total ((k.snd_buf.map Segment.resendts).foldl min k.ts_flush)
      (current + k.interval) with h | h
    · rw [min_eq_left h]
      rcases foldlMin_cases (k.snd_buf.map Segment.resendts) k.ts_flush with h2 | h2
      · right; left; exact h2
      · right; right
        rcases List.mem_map.mp h2 with ⟨s, hs, he⟩
        exact ⟨s, hs, he.symm⟩
    · left; exact min_eq_right h

/-- witness for `C8_check_deadline` at the concrete state `c8state`:
the in-flight segment's `resendts = 150` wins over `ts_flush = 170` and the
cap `100 + interval = 200`. -/
theorem C8_check_deadline_witness :
    ikcp_check c8state 100 ≤ 100 + c8state.interval ∧ ikcp_check c8state 100 ≤ c8state.ts_flush :=
  ⟨(C8_check_deadline c8state 100).1, (C8_check_deadline c8state 100).2.1⟩

-- C5 ----------------------------------------------------------------------

theorem shipStep_failSink (st : FlushSt) :
    shipStep failSink st = if st.k.buffer = [] then .ok st else .error () := by
  simp [shipStep, failSink]

theorem putSeg_buffer_ne (k : Kcp) (s : Segment) : (putSeg k s).buffer ≠ [] := by
  show k.buffer ++ encodeSeg s ≠ []
  intro h
  rcases List.append_eq_nil.mp h with ⟨_, h2⟩
  exact encodeSeg_ne_nil s h2

theorem ackLoop_fail_buffer : ∀ (acks : List (ℕ × ℕ)) (st st' : FlushSt),
    ackLoop failSink acks st = .ok st' → (st.k.buffer ≠ [] ∨ acks ≠ []) →
    st'.k.buffer ≠ [] := by
  intro acks
  induction acks with
  | nil =>
    intro st st' h hne
    simp only [ackLoop, Except.ok.injEq] at h
    subst h
    rcases hne with h1 | h2
    · exact h1
    · exact absurd rfl h2
  | cons a rest ih =>
    intro st st' h hne
    simp only [ackLoop] at h
    by_cases hc : shipCond st.k 0
    · rw [if_pos hc, shipStep_failSink] at h
      by_cases hb : st.k.buffer = []
      · rw [if_pos hb] at h
        exact ih _ _ h (Or.inl (putSeg_buffer_ne _ _))
      · rw [if_neg hb] at h
        cases h
    · rw [if_neg hc] at h
      exact ih _ _ h (Or.inl (putSeg_buffer_ne _ _))

theorem probePhase_buffer (k : Kcp) : (probePhase k).buffer = k.buffer := by
  unfold probePhase
  split
  · split
    · rfl
    · split <;> rfl
  · rfl

theorem waskPhase_fail_buffer (st st' : FlushSt)
    (h : waskPhase failSink st = .ok st') (hb : st.k.buffer ≠ []) : st'.k.buffer ≠ [] := by
  simp only [waskPhase] at h
  by_cases hp : st.k.probe &&& IKCP_ASK_SEND ≠ 0
  · rw [if_pos hp] at h
    by_cases hc : shipCond st.k 0
    · rw [if_pos hc, shipStep_failSink] at h
      rw [if_neg hb] at h
      cases h
    · rw [if_neg hc] at h
      simp only [Except.ok.injEq] at h
      subst h
      exact putSeg_buffer_ne _ _
  · rw [if_neg hp] at h
    simp only [Except.ok.injEq] at h
    subst h
    exact hb

theorem winsPhase_fail_buffer (st st' : FlushSt)
    (h : winsPhase failSink st = .ok st') (hb : st.k.buffer ≠ []) : st'.k.buffer ≠ [] := by
  simp only [winsPhase] at h
  by_cases hp : st.k.probe &&& IKCP_ASK_TELL ≠ 0
  · rw [if_pos hp] at h
    by_cases hc : shipCond st.k 0
    · rw [if_pos hc, shipStep_failSink] at h
      rw [if_neg hb] at h
      cases h
    · rw [if_neg hc] at h
      simp only [Except.ok.injEq] at h
      subst h
      exact putSeg_buffer_ne _ _
  · rw [if_neg hp] at h
    simp only [Except.ok.injEq] at h
    subst h
    exact hb

theorem promoteGo_buffer : ∀ (l : List Segment) (c w : ℕ) (k : Kcp),
    (promoteGo c w l k).buffer = k.buffer := by
  intro l
  induction l with
  | nil => intro c w k; rfl
  | cons s rest ih =>
    intro c w k
    simp only [promoteGo]
    split
    · rw [ih]
    · rfl

theorem txLoop_fail_buffer (resent rtomin : ℕ) :
    ∀ (todo done : List Segment) (lost change : Bool) (st : FlushSt) r,
    txLoop failSink resent rtomin done todo lost change st = .ok r →
    st.k.buffer ≠ [] → r.1.k.buffer ≠ [] := by
  intro todo
  induction todo with
  | nil =>
    intro done lost change st r h hb
    simp only [txLoop, Except.ok.injEq] at h
    rw [← h]
    exact hb
  | cons s todo ih =>
    intro done lost change st r h hb
    simp only [txLoop] at h
    by_cases h0 : s.xmit = 0
    · rw [if_pos h0] at h
      dsimp only at h
      by_cases hc : shipCond st.k (s.data.length)
      · rw [if_pos hc, shipStep_failSink, if_neg hb] at h
        cases h
      · rw [if_neg hc] at h
        exact ih _ _ _ _ _ h (putSeg_buffer_ne _ _)
    · rw [if_neg h0] at h
      by_cases h1 : diff st.k.current s.resendts ≥ 0
      · rw [if_pos h1] at h
        dsimp only at h
        by_cases hc : shipCond { st.k with xmit := w32 (st.k.xmit + 1) } (s.data.length)
        · rw [if_pos hc, shipStep_failSink] at h
          dsimp only at h
          rw [if_neg hb] at h
          cases h
        · rw [if_neg hc] at h
          exact ih _ _ _ _ _ h (putSeg_buffer_ne _ _)
      · rw [if_neg h1] at h
        by_cases h2 : s.fastack ≥ resent
        · rw [if_pos h2] at h
          dsimp only at h
          by_cases hc : shipCond st.k (s.data.length)
          · rw [if_pos hc, shipStep_failSink, if_neg hb] at h
            cases h
          · rw [if_neg hc] at h
            exact ih _ _ _ _ _ h (putSeg_buffer_ne _ _)
        · rw [if_neg h2] at h
          exact ih _ _ _ _ _ h hb

/-- Claim C5 counterexample: a reachable control block with one queued message
on which `ikcp_update` against a failing egress sink does not complete — the
`.unwrap()` panics (`Except.error ()`) instead of swallowing the error, while
the same tick against a working sink writes one 27-byte datagram. -/
theorem C5_flush_aborts_on_sink_error :
    ikcp_update failSink c5state 100 = .error () ∧
      (updateWrites c5state 100).map List.length = [27] := by
  decide

theorem shipStep_failSink_ne (st : FlushSt) (hb : st.k.buffer ≠ []) :
    shipStep failSink st = .error () := by
  rw [shipStep_failSink, if_neg hb]

/-- Claim C5 amended: `ikcp_flush` does not swallow egress-sink errors.  Every
`write_all` result is `.unwrap()`ed, so whenever the flush has anything to
write — e.g. for any updated control block with at least one pending ACK — a
failing sink makes the flush panic instead of completing normally. -/
theorem C5_failing_sink_panics (k : Kcp) (hu : k.updated = true)
    (ha : k.acklist ≠ []) : ikcp_flush failSink k = .error () := by
  simp only [ikcp_flush]
  rw [if_neg (by simp [hu])]
  split
  · rfl
  · rename_i stA hA
    have hbA : stA.k.buffer ≠ [] := ackLoop_fail_buffer _ _ _ hA (Or.inr ha)
    split
    · rfl
    · rename_i stC hC
      have hbC : stC.k.buffer ≠ [] := by
        refine waskPhase_fail_buffer _ _ hC ?_
        simpa [probePhase_buffer] using hbA
      split
      · rfl
      · rename_i stD hD
        have hbD : stD.k.buffer ≠ [] := winsPhase_fail_buffer _ _ hD hbC
        split
        · rfl
        · rename_i stT done lost change hT
          have hbT : stT.k.buffer ≠ [] := by
            refine txLoop_fail_buffer _ _ _ _ _ _ _ _ hT ?_
            simpa [promoteLoop, promoteGo_buffer] using hbD
          rw [shipStep_failSink_ne _ (by exact hbT)]

/-- witness for `C5_failing_sink_panics` at the concrete state `c5wit`
(updated, one pending ACK). -/
theorem C5_failing_sink_panics_witness :
    c5wit.updated = true ∧ c5wit.acklist ≠ [] ∧ ikcp_flush failSink c5wit = .error () :=
  ⟨by decide, by decide, C5_failing_sink_panics c5wit (by decide) (by decide)⟩

-- C9 ----------------------------------------------------------------------

theorem update_ack_rx_rto_le (k : Kcp) (rtt : ℕ) :
    (ikcp_update_ack k rtt).rx_rto ≤ 60000 := by
  show ibound k.rx_minrto _ IKCP_RTO_MAX ≤ 60000
  exact min_le_right _ _

theorem shipStep_rx_rto (sink : List ℕ → Bool) (st st' : FlushSt)
    (h : shipStep sink st = .ok st') : st'.k.rx_rto = st.k.rx_rto := by
  unfold shipStep at h
  split at h
  · cases h; rfl
  · split at h
    · cases h; rfl
    · cases h

theorem shipIte_rx_rto (sink : List ℕ → Bool) (c : Bool) (st st' : FlushSt)
    (h : (if c then shipStep sink st else .ok st) = .ok st') :
    st'.k.rx_rto = st.k.rx_rto := by
  by_cases hc : c = true
  · rw [if_pos hc] at h
    exact shipStep_rx_rto _ _ _ h
  · rw [if_neg hc] at h
    cases h; rfl

theorem ackLoop_rx_rto (sink : List ℕ → Bool) :
    ∀ (acks : List (ℕ × ℕ)) (st st' : FlushSt),
    ackLoop sink acks st = .ok st' → st'.k.rx_rto = st.k.rx_rto := by
  intro acks
  induction acks with
  | nil =>
    intro st st' h
    simp only [ackLoop, Except.ok.injEq] at h
    subst h; rfl
  | cons a rest ih =>
    intro st st' h
    simp only [ackLoop] at h
    split at h
    · cases h
    · rename_i st1 heq
      have h1 := shipIte_rx_rto sink _ _ _ heq
      have h2 := ih _ _ h
      rw [h2]
      exact h1

theorem probePhase_rx_rto (k : Kcp) : (probePhase k).rx_rto = k.rx_rto := by
  unfold probePhase
  split
  · split
    · rfl
    · split <;> rfl
  · rfl

theorem waskPhase_rx_rto (sink : List ℕ → Bool) (st st' : FlushSt)
    (h : waskPhase sink st = .ok st') : st'.k.rx_rto = st.k.rx_rto := by
  simp only [waskPhase] at h
  split at h
  · split at h
    · cases h
    · rename_i st1 heq
      cases h
      have h2 := shipIte_rx_rto sink _ _ _ heq
      exact h2
  · cases h; rfl

theorem winsPhase_rx_rto (sink : List ℕ → Bool) (st st' : FlushSt)
    (h : winsPhase sink st = .ok st') : st'.k.rx_rto = st.k.rx_rto := by
  simp only [winsPhase] at h
  split at h
  · split at h
    · cases h
    · rename_i st1 heq
      cases h
      have h2 := shipIte_rx_rto sink _ _ _ heq
      exact h2
  · cases h; rfl

theorem promoteGo_rx_rto : ∀ (l : List Segment) (c w : ℕ) (k : Kcp),
    (promoteGo c w l k).rx_rto = k.rx_rto := by
  intro l
  induction l with
  | nil => intro c w k; rfl
  | cons s rest ih =>
    intro c w k
    simp only [promoteGo]
    split
    · rw [ih]
    · rfl

theorem txLoop_rx_rto (sink : List ℕ → Bool) (resent rtomin : ℕ) :
    ∀ (todo done : List Segment) (lost change : Bool) (st : FlushSt) r,
    txLoop sink resent rtomin done todo lost change st = .ok r →
    r.1.k.rx_rto = st.k.rx_rto := by
  intro todo
  induction todo with
  | nil =>
    intro done lost change st r h
    simp only [txLoop, Except.ok.injEq] at h
    rw [← h]
  | cons s todo ih =>
    intro done lost change st r h
    simp only [txLoop] at h
    split at h
    · exact ih _ _ _ _ _ h
    · rename_i s1 k1 lost1 change1 hch
      split at h
      · cases h
      · rename_i st2 heq
        have h2 := ih _ _ _ _ _ h
        have h1 : st2.k.rx_rto = k1.rx_rto := shipIte_rx_rto sink _ _ _ heq
        have h0 : k1.rx_rto = st.k.rx_rto := by
          by_cases hx : s.xmit = 0
          · rw [if_pos hx] at hch
            cases hch; rfl
          · rw [if_neg hx] at hch
            by_cases ht : diff st.k.current s.resendts ≥ 0
            · rw [if_pos ht] at hch
              cases hch; rfl
            · rw [if_neg ht] at hch
              by_cases hf : s.fastack ≥ resent
              · rw [if_pos hf] at hch
                cases hch; rfl
              · rw [if_neg hf] at hch
                cases hch
        rw [h2]
        show (putSeg st2.k _).rx_rto = st.k.rx_rto
        rw [show (putSeg st2.k _).rx_rto = st2.k.rx_rto from rfl, h1, h0]

theorem flush_rx_rto (sink : List ℕ → Bool) (k : Kcp) (p : Kcp × List (List ℕ))
    (h : ikcp_flush sink k = .ok p) : p.1.rx_rto = k.rx_rto := by
  simp only [ikcp_flush] at h
  split at h
  · cases h; rfl
  · split at h
    · cases h
    · rename_i stA hA
      split at h
      · cases h
      · rename_i stC hC
        split at h
        · cases h
        · rename_i stD hD
          split at h
          · cases h
          · rename_i stT done lost change hT
            split at h
            · cases h
            · rename_i stF hF
              cases h
              have e1 : stA.k.rx_rto = k.rx_rto := ackLoop_rx_rto sink _ _ _ hA
              have e2 : stC.k.rx_rto = stA.k.rx_rto := by
                have := waskPhase_rx_rto sink _ _ hC
                rw [this]
                show (probePhase _).rx_rto = _
                rw [probePhase_rx_rto]
              have e3 : stD.k.rx_rto = stC.k.rx_rto := winsPhase_rx_rto sink _ _ hD
              have e4 : stT.k.rx_rto = stD.k.rx_rto := by
                have := txLoop_rx_rto sink _ _ _ _ _ _ _ _ hT
                rw [this]
                show (promoteLoop _ _ _).rx_rto = _
                unfold promoteLoop
                rw [promoteGo_rx_rto]
              have e5 : stF.k.rx_rto = stT.k.rx_rto := by
                have := shipStep_rx_rto sink _ _ hF
                rw [this]
              show (if _ then _ else _ : Kcp).rx_rto = k.rx_rto
              have efinal : ∀ kk : Kcp, kk.rx_rto = stF.k.rx_rto →
                  (if kk.cwnd < 1 then { kk with cwnd := 1, incr := kk.mss } else kk).rx_rto = k.rx_rto := by
                intro kk hk
                split
                · show kk.rx_rto = k.rx_rto
                  rw [hk, e5, e4, e3, e2, e1]
                · rw [hk, e5, e4, e3, e2, e1]
              apply efinal
              split
              · split <;> rfl
              · split
                · rfl
                · rfl

theorem flushRun_rx_rto (k : Kcp) : (flushRun k).rx_rto = k.rx_rto := by
  unfold flushRun
  split
  · rename_i p h
    exact flush_rx_rto okSink k p h
  · rfl

theorem updateStep_rx_rto (k : Kcp) (c : ℕ) : (updateStep k c).1.rx_rto = k.rx_rto := by
  simp only [updateStep]
  repeat' split
  all_goals rfl

theorem update_ok_rx_rto (sink : List ℕ → Bool) (k : Kcp) (t : ℕ) (p : Kcp × List (List ℕ))
    (h : ikcp_update sink k t = .ok p) : p.1.rx_rto = k.rx_rto := by
  simp only [ikcp_update] at h
  split at h
  · rw [flush_rx_rto sink _ _ h, updateStep_rx_rto]
  · cases h
    exact updateStep_rx_rto k t

theorem updateRun_rx_rto (k : Kcp) (t : ℕ) : (updateRun k t).rx_rto = k.rx_rto := by
  unfold updateRun
  split
  · rename_i p h
    exact update_ok_rx_rto okSink k t p h
  · rfl

theorem sendFrags_rx_rto : ∀ (n : ℕ) (rest : List ℕ) (k : Kcp),
    (sendFrags k n rest).1.rx_rto = k.rx_rto := by
  intro n
  induction n with
  | zero => intro rest k; rfl
  | succ m ih => intro rest k; exact ih _ _

theorem send_rx_rto (k : Kcp) (b : List ℕ) : (ikcp_send k b).1.rx_rto = k.rx_rto := by
  simp only [ikcp_send]
  repeat' split
  all_goals first
    | rfl
    | rw [sendFrags_rx_rto]

theorem kcpPromote_rx_rto (k : Kcp) : (kcpPromote k).rx_rto = k.rx_rto := rfl

theorem recv_rx_rto (k : Kcp) (n : ℕ) : (ikcp_recv k n).1.rx_rto = k.rx_rto := by
  simp only [ikcp_recv]
  split
  · rfl
  · split
    · rfl
    · split
      · rfl
      · split
        · rfl
        · split <;> rfl

theorem parse_data_rx_rto (k : Kcp) (s : Segment) :
    (ikcp_parse_data k s).rx_rto = k.rx_rto := by
  simp only [ikcp_parse_data]
  split
  · rfl
  · rw [kcpPromote_rx_rto]
    split <;> rfl

theorem ackBranchK_rx_rto_le (k1 : Kcp) (ts sn : ℕ) (h : k1.rx_rto ≤ 60000) :
    (ackBranchK k1 ts sn).rx_rto ≤ 60000 := by
  show (if diff k1.current ts ≥ 0 then ikcp_update_ack k1 (w32 (diff k1.current ts).toNat)
    else k1).rx_rto ≤ 60000
  split
  · exact update_ack_rx_rto_le _ _
  · exact h

theorem pushBranch_rx_rto (k1 : Kcp) (conv cmd frg wnd ts sn una len : ℕ) (rest : List ℕ) :
    (pushBranch k1 conv cmd frg wnd ts sn una len rest).1.rx_rto = k1.rx_rto := by
  simp only [pushBranch]
  split
  · split
    · rw [parse_data_rx_rto]
    · rfl
  · rfl

theorem inputLoop_rx_rto_le : ∀ (fuel : ℕ) (k : Kcp) (fl : Bool) (ma : ℕ) (b : List ℕ),
    k.rx_rto ≤ 60000 → (inputLoop fuel k fl ma b).1.rx_rto ≤ 60000 := by
  intro fuel
  induction fuel with
  | zero => intro k fl ma b hk; exact hk
  | succ f ih =>
    intro k fl ma b hk
    rw [inputLoop]
    dsimp only
    split
    · exact hk
    · split
      · exact hk
      · split
        · exact hk
        · split
          · exact hk
          · split
            · exact ih _ _ _ _ (ackBranchK_rx_rto_le _ _ _ hk)
            · split
              · apply ih
                rw [pushBranch_rx_rto]
                exact hk
              · split
                · exact ih _ _ _ _ hk
                · exact ih _ _ _ _ hk

theorem input_rx_rto_le (k : Kcp) (b : List ℕ) (hk : k.rx_rto ≤ 60000) :
    (ikcp_input k b).1.rx_rto ≤ 60000 := by
  simp only [ikcp_input]
  split
  · exact hk
  · split
    · rename_i k1 fl ma leftover e heq
      have := inputLoop_rx_rto_le b.length k false 0 b hk
      rw [heq] at this
      exact this
    · rename_i k1 fl ma leftover heq
      have h1 : k1.rx_rto ≤ 60000 := by
        have := inputLoop_rx_rto_le b.length k false 0 b hk
        rw [heq] at this
        exact this
      show (inputCwnd _ _).rx_rto ≤ 60000
      rw [show ∀ (u : ℕ) (kk : Kcp), (inputCwnd u kk).rx_rto = kk.rx_rto from fun _ _ => rfl]
      split
      · show (ikcp_parse_fastack k1 ma).rx_rto ≤ 60000
        rw [show (ikcp_parse_fastack k1 ma).rx_rto = k1.rx_rto from rfl]
        exact h1
      · exact h1

/-- Claim C9 counterexample: a reachable state violating `rx_minrto ≤ rx_rto`.
Enable nodelay (`rx_minrto = 30`), absorb a zero-RTT ACK (`rx_rto` clamps to
30), then disable nodelay: `rx_minrto` jumps back to 100 but `rx_rto` is not
re-clamped and stays 30. -/
theorem C9_nodelay_breaks_minrto_bound :
    Reachable c9state ∧ c9state.rx_minrto = 100 ∧ c9state.rx_rto = 30 ∧
      ¬ (c9state.rx_minrto ≤ c9state.rx_rto) := by
  refine ⟨?_, by decide, by decide, by decide⟩
  exact Reachable.nodelay _ false 100 0 false
    (Reachable.input _ (ackBytes 5 0 0 0 0)
      (Reachable.nodelay _ true 10 0 false (Reachable.create 5)))

/-- Claim C9 amended: in every reachable control-block state the upper bound
`rx_rto ≤ 60000` holds, and the full bound `rx_minrto ≤ rx_rto ≤ 60000` is
restored by every ACK RTT sample (`ikcp_update_ack`); but `ikcp_nodelay` can
raise `rx_minrto` without re-clamping `rx_rto`, so the lower bound can be
violated until the next ACK sample (see the counterexample). -/
theorem C9_rto_bounds :
    (∀ k : Kcp, Reachable k → k.rx_rto ≤ 60000) ∧
    (∀ (k : Kcp) (rtt : ℕ), k.rx_minrto ≤ 60000 →
      (ikcp_update_ack k rtt).rx_minrto ≤ (ikcp_update_ack k rtt).rx_rto ∧
      (ikcp_update_ack k rtt).rx_rto ≤ 60000) := by
  constructor
  · intro k h
    induction h with
    | create conv =>
      show IKCP_RTO_DEF ≤ 60000
      decide
    | recv k n _ ih => rw [recv_rx_rto]; exact ih
    | send k b _ ih => rw [send_rx_rto]; exact ih
    | input k b _ ih => exact input_rx_rto_le k b ih
    | update k t _ ih => rw [updateRun_rx_rto]; exact ih
    | flush k _ ih => rw [flushRun_rx_rto]; exact ih
    | setmtu k m _ ih =>
      simp only [ikcp_setmtu]
      split
      · exact ih
      · exact ih
    | interval k i _ ih => exact ih
    | nodelay k nd i r nc _ ih => exact ih
    | wndsize k s r _ ih =>
      simp only [ikcp_wndsize]
      split
      · split <;> exact ih
      · split <;> exact ih
  · intro k rtt h
    constructor
    · show k.rx_minrto ≤ ibound k.rx_minrto _ IKCP_RTO_MAX
      exact le_min (le_max_left _ _) h
    · exact update_ack_rx_rto_le k rtt

/-- witness for `C9_rto_bounds`: the invariant at the freshly created block
and the restored bound after a 0 ms RTT sample on it. -/
theorem C9_rto_bounds_witness :
    (ickp_create 5).rx_rto ≤ 60000 ∧
      (ikcp_update_ack (ickp_create 5) 0).rx_minrto ≤ (ikcp_update_ack (ickp_create 5) 0).rx_rto :=
  ⟨C9_rto_bounds.1 (ickp_create 5) (Reachable.create 5),
    (C9_rto_bounds.2 (ickp_create 5) 0 (by decide)).1⟩

-- C10 ---------------------------------------------------------------------

theorem u8at_append (l l' : List ℕ) (i : ℕ) (h : i < l.length) :
    u8at (l ++ l') i = u8at l i :=
  List.getD_append l l' 0 i h

theorem u16at_append (l l' : List ℕ) (i : ℕ) (h : i + 2 ≤ l.length) :
    u16at (l ++ l') i = u16at l i := by
  unfold u16at
  rw [u8at_append l l' i (by omega), u8at_append l l' (i + 1) (by omega)]

theorem u32at_append (l l' : List ℕ) (i : ℕ) (h : i + 4 ≤ l.length) :
    u32at (l ++ l') i = u32at l i := by
  unfold u32at
  rw [u8at_append l l' i (by omega), u8at_append l l' (i + 1) (by omega),
    u8at_append l l' (i + 2) (by omega), u8at_append l l' (i + 3) (by omega)]

theorem drop_append_le {α : Type} (l l' : List α) (n : ℕ) (h : n ≤ l.length) :
    (l ++ l').drop n = l.drop n ++ l' := by
  rw [List.drop_append_eq_append_drop, show n - l.length = 0 from by omega, List.drop_zero]

theorem take_append_le {α : Type} (l l' : List α) (n : ℕ) (h : n ≤ l.length) :
    (l ++ l').take n = l.take n := by
  rw [List.take_append_eq_append_take, show n - l.length = 0 from by omega, List.take_zero,
    List.append_nil]

theorem pushBranch_len (k1 : Kcp) (conv cmd frg wnd ts sn una len : ℕ) (rest : List ℕ) :
    (pushBranch k1 conv cmd frg wnd ts sn una len rest).2.length ≤ rest.length := by
  simp only [pushBranch]
  split
  · split
    · simp only [List.length_drop]
      omega
    · exact le_refl _
  · exact le_refl _

theorem pushBranch_append (k1 : Kcp) (conv cmd frg wnd ts sn una len : ℕ)
    (X rest : List ℕ) (h : len ≤ X.length) :
    pushBranch k1 conv cmd frg wnd ts sn una len (X ++ rest) =
      ((pushBranch k1 conv cmd frg wnd ts sn una len X).1,
        (pushBranch k1 conv cmd frg wnd ts sn una len X).2 ++ rest) := by
  simp only [pushBranch]
  split
  · split
    · rw [take_append_le X rest len h, drop_append_le X rest len h]
    · rfl
  · rfl

theorem inputLoop_fuel : ∀ (f g : ℕ) (k : Kcp) (fl : Bool) (ma : ℕ) (b : List ℕ),
    b.length ≤ f → b.length ≤ g →
    inputLoop f k fl ma b = inputLoop g k fl ma b := by
  intro f
  induction f with
  | zero =>
    intro g k fl ma b hf hg
    have hb : b = [] := List.length_eq_zero.mp (by omega)
    subst hb
    cases g with
    | zero => rfl
    | succ g' =>
      rw [inputLoop, inputLoop, if_pos (by simp : ([] : List ℕ).length < 24)]
  | succ f' ih =>
    intro g k fl ma b hf hg
    cases g with
    | zero =>
      have hb : b = [] := List.length_eq_zero.mp (by omega)
      subst hb
      rw [inputLoop, inputLoop, if_pos (by simp : ([] : List ℕ).length < 24)]
    | succ g' =>
      rw [inputLoop]
      rw [inputLoop]
      by_cases h24 : b.length < 24
      · rw [if_pos h24, if_pos h24]
      · rw [if_neg h24, if_neg h24]
        dsimp only
        by_cases hconv : u32at b 0 ≠ k.conv
        · rw [if_pos hconv, if_pos hconv]
        · rw [if_neg hconv, if_neg hconv]
          by_cases hlen : (b.drop 24).length < u32at b 20
          · rw [if_pos hlen, if_pos hlen]
          · rw [if_neg hlen, if_neg hlen]
            by_cases hcmd : u8at b 4 ≠ IKCP_CMD_PUSH ∧ u8at b 4 ≠ IKCP_CMD_ACK ∧
                u8at b 4 ≠ IKCP_CMD_WASK ∧ u8at b 4 ≠ IKCP_CMD_WINS
            · rw [if_pos hcmd, if_pos hcmd]
            · rw [if_neg hcmd, if_neg hcmd]
              by_cases hack : u8at b 4 = IKCP_CMD_ACK
              · rw [if_pos hack, if_pos hack]
                exact ih _ _ _ _ _ (by simp only [List.length_drop]; omega)
                  (by simp only [List.length_drop]; omega)
              · rw [if_neg hack, if_neg hack]
                by_cases hpush : u8at b 4 = IKCP_CMD_PUSH
                · rw [if_pos hpush, if_pos hpush]
                  have hp := pushBranch_len
                    (ikcp_shrink_buf (ikcp_parse_una { k with rmt_wnd := u16at b 6 } (u32at b 16)))
                    (u32at b 0) (u8at b 4) (u8at b 5) (u16at b 6) (u32at b 8) (u32at b 12)
                    (u32at b 16) (u32at b 20) (b.drop 24)
                  have hd24 : (b.drop 24).length = b.length - 24 := List.length_drop 24 b
                  exact ih _ _ _ _ _ (by omega) (by omega)
                · rw [if_neg hpush, if_neg hpush]
                  by_cases hwask : u8at b 4 = IKCP_CMD_WASK
                  · rw [if_pos hwask, if_pos hwask]
                    exact ih _ _ _ _ _ (by simp only [List.length_drop]; omega)
                      (by simp only [List.length_drop]; omega)
                  · rw [if_neg hwask, if_neg hwask]
                    exact ih _ _ _ _ _ (by simp only [List.length_drop]; omega)
                      (by simp only [List.length_drop]; omega)

theorem inputLoop_append : ∀ (f : ℕ) (k : Kcp) (fl : Bool) (ma : ℕ) (d rest : List ℕ)
    (k' : Kcp) (fl' : Bool) (ma' : ℕ),
    inputLoop f k fl ma d = (k', fl', ma', [], none) → rest.length < 24 →
    inputLoop f k fl ma (d ++ rest) = (k', fl', ma', rest, none) := by
  intro f
  induction f with
  | zero =>
    intro k fl ma d rest k' fl' ma' h hr
    simp only [inputLoop, Prod.mk.injEq] at h ⊢
    obtain ⟨rfl, rfl, rfl, rfl, -⟩ := h
    simp
  | succ f' ih =>
    intro k fl ma d rest k' fl' ma' h hr
    rw [inputLoop] at h
    rw [inputLoop]
    by_cases h24 : d.length < 24
    · rw [if_pos h24] at h
      simp only [Prod.mk.injEq] at h
      obtain ⟨rfl, rfl, rfl, rfl, -⟩ := h
      rw [if_pos (by simpa using hr)]
      simp
    · have h24' : ¬ (d ++ rest).length < 24 := by
        simp only [List.length_append]
        omega
      rw [if_neg h24] at h
      rw [if_neg h24']
      dsimp only at h ⊢
      rw [u32at_append d rest 0 (by omega), u8at_append d rest 4 (by omega),
        u8at_append d rest 5 (by omega), u16at_append d rest 6 (by omega),
        u32at_append d rest 8 (by omega), u32at_append d rest 12 (by omega),
        u32at_append d rest 16 (by omega), u32at_append d rest 20 (by omega),
        drop_append_le d rest 24 (by omega)]
      by_cases hconv : u32at d 0 ≠ k.conv
      · rw [if_pos hconv] at h
        simp at h
      · rw [if_neg hconv] at h
        rw [if_neg hconv]
        by_cases hlen : (d.drop 24).length < u32at d 20
        · rw [if_pos hlen] at h
          simp at h
        · have hlen' : ¬ (d.drop 24 ++ rest).length < u32at d 20 := by
            simp only [List.length_append]
            omega
          rw [if_neg hlen] at h
          rw [if_neg hlen']
          by_cases hcmd : u8at d 4 ≠ IKCP_CMD_PUSH ∧ u8at d 4 ≠ IKCP_CMD_ACK ∧
              u8at d 4 ≠ IKCP_CMD_WASK ∧ u8at d 4 ≠ IKCP_CMD_WINS
          · rw [if_pos hcmd] at h
            simp at h
          · rw [if_neg hcmd] at h
            rw [if_neg hcmd]
            by_cases hack : u8at d 4 = IKCP_CMD_ACK
            · rw [if_pos hack] at h
              rw [if_pos hack]
              exact ih _ _ _ _ _ _ _ _ h hr
            · rw [if_neg hack] at h
              rw [if_neg hack]
              by_cases hpush : u8at d 4 = IKCP_CMD_PUSH
              · rw [if_pos hpush] at h
                rw [if_pos hpush]
                rw [pushBranch_append
                  (ikcp_shrink_buf (ikcp_parse_una { k with rmt_wnd := u16at d 6 } (u32at d 16)))
                  (u32at d 0) (u8at d 4) (u8at d 5) (u16at d 6) (u32at d 8) (u32at d 12)
                  (u32at d 16) (u32at d 20) (d.drop 24) rest (by omega)]
                exact ih _ _ _ _ _ _ _ _ h hr
              · rw [if_neg hpush] at h
                rw [if_neg hpush]
                by_cases hwask : u8at d 4 = IKCP_CMD_WASK
                · rw [if_pos hwask] at h
                  rw [if_pos hwask]
                  exact ih _ _ _ _ _ _ _ _ h hr
                · rw [if_neg hwask] at h
                  rw [if_neg hwask]
                  exact ih _ _ _ _ _ _ _ _ h hr

/-- Claim C10: `ikcp_input` rejects any datagram shorter than 24 bytes with
`Err(-1)` and leaves the control block untouched; but once the parsing loop
has consumed at least one complete segment, a trailing remainder of 1 to 23
bytes causes no error: the call returns `Ok` with the remainder reported only
as unconsumed bytes (the returned count stays the fully-parsed prefix's
length). -/
theorem C10_short_datagram_and_trailing_remainder :
    (∀ (k : Kcp) (b : List ℕ), b.length < 24 → ikcp_input k b = (k, .error (-1))) ∧
    (∀ (k : Kcp) (d rest : List ℕ) (k' : Kcp) (fl' : Bool) (ma' : ℕ),
      inputLoop d.length k false 0 d = (k', fl', ma', [], none) →
      24 ≤ d.length → 1 ≤ rest.length → rest.length ≤ 23 →
      (ikcp_input k (d ++ rest)).2 = .ok d.length) := by
  constructor
  · intro k b hb
    simp only [ikcp_input]
    rw [if_pos hb]
  · intro k d rest k' fl' ma' h h24 hr1 hr2
    have hfuel : inputLoop (d ++ rest).length k false 0 d = (k', fl', ma', [], none) := by
      rw [inputLoop_fuel (d ++ rest).length d.length k false 0 d
        (by simp only [List.length_append]; omega) (le_refl _)]
      exact h
    have happ := inputLoop_append (d ++ rest).length k false 0 d rest k' fl' ma'
      hfuel (by omega)
    simp only [ikcp_input]
    rw [if_neg (by simp only [List.length_append]; omega), happ]
    show Except.ok ((d ++ rest).length - rest.length) = Except.ok d.length
    rw [List.length_append]
    congr 1
    omega

/-- witness for `C10_short_datagram_and_trailing_remainder`: a 3-byte datagram
is rejected with the state unchanged, and a 24-byte ACK segment followed by a
1-byte remainder is accepted with 24 consumed bytes. -/
theorem C10_short_datagram_and_trailing_remainder_witness :
    ikcp_input (ickp_create 5) [0, 1, 2] = (ickp_create 5, .error (-1)) ∧
      (ikcp_input (ickp_create 5) (ackBytes 5 0 0 0 0 ++ [7])).2 =
        .ok (ackBytes 5 0 0 0 0).length :=
  ⟨C10_short_datagram_and_trailing_remainder.1 (ickp_create 5) [0, 1, 2] (by decide),
    C10_short_datagram_and_trailing_remainder.2 (ickp_create 5) (ackBytes 5 0 0 0 0) [7]
      c10k true 0 (by decide) (by decide) (by decide) (by decide)⟩

-- C3 ----------------------------------------------------------------------

theorem ackBytes_length (conv wnd ts sn una : ℕ) :
    (ackBytes conv wnd ts sn una).length = 24 := by
  rw [ackBytes, encodeSeg_length]
  rfl

theorem ackBytes_conv (conv wnd ts sn una : ℕ) (h : conv < 4294967296) :
    u32at (ackBytes conv wnd ts sn una) 0 = conv := by
  rw [ackBytes, u32at_encode_conv]
  exact Nat.mod_eq_of_lt h

theorem ackBytes_cmd (conv wnd ts sn una : ℕ) :
    u8at (ackBytes conv wnd ts sn una) 4 = IKCP_CMD_ACK := by
  rw [ackBytes, u8at_encode_cmd]
  rfl

theorem ackBytes_wnd (conv wnd ts sn una : ℕ) (h : wnd < 65536) :
    u16at (ackBytes conv wnd ts sn una) 6 = wnd := by
  rw [ackBytes, u16at_encode_wnd]
  exact Nat.mod_eq_of_lt h

theorem ackBytes_ts (conv wnd ts sn una : ℕ) (h : ts < 4294967296) :
    u32at (ackBytes conv wnd ts sn una) 8 = ts := by
  rw [ackBytes, u32at_encode_ts]
  exact Nat.mod_eq_of_lt h

theorem ackBytes_sn (conv wnd ts sn una : ℕ) (h : sn < 4294967296) :
    u32at (ackBytes conv wnd ts sn una) 12 = sn := by
  rw [ackBytes, u32at_encode_sn]
  exact Nat.mod_eq_of_lt h

theorem ackBytes_una (conv wnd ts sn una : ℕ) (h : una < 4294967296) :
    u32at (ackBytes conv wnd ts sn una) 16 = una := by
  rw [ackBytes, u32at_encode_una]
  exact Nat.mod_eq_of_lt h

theorem ackBytes_len (conv wnd ts sn una : ℕ) :
    u32at (ackBytes conv wnd ts sn una) 20 = 0 := by
  rw [ackBytes, u32at_encode_len]
  rfl

theorem ackBytes_drop24 (conv wnd ts sn una : ℕ) :
    (ackBytes conv wnd ts sn una).drop 24 = [] := by
  rw [ackBytes, encodeSeg_drop24]
  rfl

theorem inputLoop_nil (f : ℕ) (k : Kcp) (fl : Bool) (ma : ℕ) :
    inputLoop f k fl ma [] = (k, fl, ma, [], none) := by
  cases f with
  | zero => rfl
  | succ f' => rw [inputLoop, if_pos (by simp : ([] : List ℕ).length < 24)]

theorem inputLoop_single_ack (f : ℕ) (k : Kcp) (wnd ts sn una : ℕ)
    (hf : 1 ≤ f) (hc : k.conv < 4294967296) (hw : wnd < 65536)
    (hts : ts < 4294967296) (hsn : sn < 4294967296) (hu : una < 4294967296) :
    inputLoop f k false 0 (ackBytes k.conv wnd ts sn una) =
      (ackBranchK (ikcp_shrink_buf (ikcp_parse_una { k with rmt_wnd := wnd } una)) ts sn,
        true, sn, [], none) := by
  cases f with
  | zero => omega
  | succ f' =>
    rw [inputLoop]
    rw [if_neg (by rw [ackBytes_length]; omega)]
    dsimp only
    rw [ackBytes_conv _ _ _ _ _ hc, ackBytes_cmd, ackBytes_wnd _ _ _ _ _ hw,
      ackBytes_ts _ _ _ _ _ hts, ackBytes_sn _ _ _ _ _ hsn, ackBytes_una _ _ _ _ _ hu,
      ackBytes_len, ackBytes_drop24]
    rw [if_neg (by simp : ¬ k.conv ≠ k.conv)]
    rw [if_neg (by simp : ¬ ([] : List ℕ).length < 0)]
    rw [if_neg (by decide :
      ¬ (IKCP_CMD_ACK ≠ IKCP_CMD_PUSH ∧ IKCP_CMD_ACK ≠ IKCP_CMD_ACK ∧
        IKCP_CMD_ACK ≠ IKCP_CMD_WASK ∧ IKCP_CMD_ACK ≠ IKCP_CMD_WINS))]
    rw [if_pos (rfl : IKCP_CMD_ACK = IKCP_CMD_ACK)]
    rw [if_neg (by simp : ¬ (false : Bool) = true)]
    rw [inputLoop_nil]

theorem input_ack_eq (k : Kcp) (wnd ts sn una : ℕ)
    (hc : k.conv < 4294967296) (hw : wnd < 65536) (hts : ts < 4294967296)
    (hsn : sn < 4294967296) (hu : una < 4294967296) :
    ikcp_input k (ackBytes k.conv wnd ts sn una) = (ackAbsorb k wnd ts sn una, .ok 24) := by
  unfold ikcp_input
  rw [if_neg (by rw [ackBytes_length]; omega)]
  rw [inputLoop_single_ack (ackBytes k.conv wnd ts sn una).length k wnd ts sn una
    (by rw [ackBytes_length]; omega) hc hw hts hsn hu]
  dsimp only
  rw [if_pos (rfl : (true : Bool) = true)]
  rw [ackBytes_length]
  rfl

/-- Claim C3 counterexample: a reachable control block (fresh block ticked at
`current = 100`) and a well-formed zero-payload ACK datagram it accepts, whose
second delivery changes the control block (the duplicate 100 ms RTT sample is
fed to the estimator again: `rx_rttval` drops from 50 to 37 and `rx_rto` from
300 to 248). -/
theorem C3_double_ack_changes_state :
    (ikcp_input c3base (ackBytes 5 0 0 0 0)).2 = .ok 24 ∧
      (ikcp_input (ikcp_input c3base (ackBytes 5 0 0 0 0)).1 (ackBytes 5 0 0 0 0)).1 ≠
        (ikcp_input c3base (ackBytes 5 0 0 0 0)).1 := by
  decide

theorem unaDrop_ge (una : ℕ) : ∀ (l : List Segment),
    l.Pairwise (fun a b => a.sn < b.sn) →
    ∀ x ∈ unaDrop una l, una ≤ x.sn := by
  intro l
  induction l with
  | nil => intro _ x hx; cases hx
  | cons s rest ih =>
    intro hpw x hx
    obtain ⟨hhead, htail⟩ := List.pairwise_cons.mp hpw
    rw [unaDrop, List.dropWhile_cons] at hx
    by_cases hs : s.sn < una
    · rw [if_pos (by simp [hs])] at hx
      exact ih htail x hx
    · rw [if_neg (by simp [hs])] at hx
      rcases List.mem_cons.mp hx with rfl | hmem
      · omega
      · have := hhead x hmem
        omega

theorem unaDrop_all_ge (una : ℕ) (l : List Segment) (h : ∀ x ∈ l, una ≤ x.sn) :
    unaDrop una l = l := by
  cases l with
  | nil => rfl
  | cons s rest =>
    rw [unaDrop, List.dropWhile_cons,
      if_neg (by
        simp only [decide_eq_true_eq]
        have := h s (List.mem_cons_self s rest)
        omega)]

theorem unaDrop_sublist (una : ℕ) (l : List Segment) :
    List.Sublist (unaDrop una l) l :=
  List.dropWhile_sublist _

theorem parse_ack_go_sublist (sn : ℕ) : ∀ (l : List Segment),
    List.Sublist (ikcp_parse_ack_go sn l) l := by
  intro l
  induction l with
  | nil => exact List.Sublist.refl []
  | cons s rest ih =>
    simp only [ikcp_parse_ack_go]
    split
    · exact List.sublist_cons_self s rest
    · split
      · exact List.Sublist.refl _
      · exact List.Sublist.cons₂ s ih

theorem parse_ack_go_not_mem (sn : ℕ) : ∀ (l : List Segment),
    sn ∉ l.map Segment.sn → ikcp_parse_ack_go sn l = l := by
  intro l
  induction l with
  | nil => intro _; rfl
  | cons s rest ih =>
    intro h
    simp only [List.map_cons, List.mem_cons, not_or] at h
    obtain ⟨h1, h2⟩ := h
    simp only [ikcp_parse_ack_go]
    rw [if_neg h1]
    split
    · rfl
    · rw [ih h2]

theorem parse_ack_go_sorted_not_mem (sn : ℕ) : ∀ (l : List Segment),
    l.Pairwise (fun a b => a.sn < b.sn) →
    sn ∉ (ikcp_parse_ack_go sn l).map Segment.sn := by
  intro l
  induction l with
  | nil => intro _ h; cases h
  | cons s rest ih =>
    intro hpw
    obtain ⟨hhead, htail⟩ := List.pairwise_cons.mp hpw
    simp only [ikcp_parse_ack_go]
    by_cases h1 : sn = s.sn
    · rw [if_pos h1]
      intro hmem
      rcases List.mem_map.mp hmem with ⟨y, hy, hysn⟩
      have := hhead y hy
      omega
    · rw [if_neg h1]
      by_cases h2 : sn < s.sn
      · rw [if_pos h2]
        intro hmem
        simp only [List.map_cons, List.mem_cons] at hmem
        rcases hmem with he | hmem
        · exact h1 he
        · rcases List.mem_map.mp hmem with ⟨y, hy, hysn⟩
          have := hhead y hy
          omega
      · rw [if_neg h2]
        intro hmem
        simp only [List.map_cons, List.mem_cons] at hmem
        rcases hmem with he | hmem
        · exact h1 he
        · exact ih htail hmem

theorem fastack_go_map_sn (m : ℕ) : ∀ (l : List Segment),
    (ikcp_parse_fastack_go m l).map Segment.sn = l.map Segment.sn := by
  intro l
  induction l with
  | nil => rfl
  | cons s rest ih =>
    simp only [ikcp_parse_fastack_go]
    split
    · rfl
    · split
      · simp only [List.map_cons, ih]
      · simp only [List.map_cons, ih]

theorem fastack_go_erase (m : ℕ) : ∀ (l : List Segment),
    (ikcp_parse_fastack_go m l).map eraseFa = l.map eraseFa := by
  intro l
  induction l with
  | nil => rfl
  | cons s rest ih =>
    simp only [ikcp_parse_fastack_go]
    split
    · rfl
    · split
      · simp only [List.map_cons, ih, eraseFa]
      · simp only [List.map_cons, ih]

theorem headSn_congr (l l' : List Segment) (d : ℕ)
    (h : l.map Segment.sn = l'.map Segment.sn) : headSn l d = headSn l' d := by
  cases l with
  | nil =>
    cases l' with
    | nil => rfl
    | cons s' rest' => simp at h
  | cons s rest =>
    cases l' with
    | nil => simp at h
    | cons s' rest' =>
      simp only [List.map_cons, List.cons.injEq] at h
      show s.sn = s'.sn
      exact h.1

theorem all_ge_congr (una : ℕ) (l l' : List Segment)
    (h : l.map Segment.sn = l'.map Segment.sn) (hall : ∀ x ∈ l, una ≤ x.sn) :
    ∀ x ∈ l', una ≤ x.sn := by
  intro x hx
  have hmem : x.sn ∈ l'.map Segment.sn := List.mem_map_of_mem _ hx
  rw [← h] at hmem
  rcases List.mem_map.mp hmem with ⟨y, hy, hsn⟩
  have := hall y hy
  omega

theorem ackB_sublist (l : List Segment) (nx sn una : ℕ) :
    List.Sublist (ackB l nx sn una) (unaDrop una l) := by
  simp only [ackB]
  split
  · exact List.Sublist.refl _
  · exact parse_ack_go_sublist sn _

theorem ackB_all_ge (l : List Segment) (nx sn una : ℕ)
    (hs : l.Pairwise (fun a b => a.sn < b.sn)) :
    ∀ x ∈ ackB l nx sn una, una ≤ x.sn :=
  fun x hx => unaDrop_ge una l hs x ((ackB_sublist l nx sn una).subset hx)

theorem ackC_map_sn (l : List Segment) (nx sn una : ℕ) :
    (ackC l nx sn una).map Segment.sn = (ackB l nx sn una).map Segment.sn := by
  unfold ackC
  split
  · rfl
  · exact fastack_go_map_sn sn _

theorem ackC_all_ge (l : List Segment) (nx sn una : ℕ)
    (hs : l.Pairwise (fun a b => a.sn < b.sn)) :
    ∀ x ∈ ackC l nx sn una, una ≤ x.sn :=
  all_ge_congr una _ _ (ackC_map_sn l nx sn una).symm (ackB_all_ge l nx sn una hs)

theorem ackUa2_of_C (l : List Segment) (nx sn una : ℕ) :
    headSn (ackC l nx sn una) nx = ackUa2 l nx sn una :=
  headSn_congr _ _ nx (ackC_map_sn l nx sn una)

theorem ackB_idem (l : List Segment) (nx sn una : ℕ)
    (hs : l.Pairwise (fun a b => a.sn < b.sn)) :
    ackB (ackC l nx sn una) nx sn una = ackC l nx sn una := by
  have hA : unaDrop una (ackC l nx sn una) = ackC l nx sn una :=
    unaDrop_all_ge una _ (ackC_all_ge l nx sn una hs)
  simp only [ackB]
  rw [hA, ackUa2_of_C]
  split
  · rfl
  · rename_i hguard
    apply parse_ack_go_not_mem
    rw [ackC_map_sn]
    simp only [ackB]
    split
    · rename_i hg1
      exfalso
      apply hguard
      have hBA : ackB l nx sn una = unaDrop una l := by
        simp only [ackB]
        rw [if_pos hg1]
      unfold ackUa2
      rw [hBA]
      exact hg1
    · exact parse_ack_go_sorted_not_mem sn _ (hs.sublist (unaDrop_sublist una l))

theorem ackUa2_idem (l : List Segment) (nx sn una : ℕ)
    (hs : l.Pairwise (fun a b => a.sn < b.sn)) :
    ackUa2 (ackC l nx sn una) nx sn una = ackUa2 l nx sn una := by
  unfold ackUa2
  rw [ackB_idem l nx sn una hs]
  exact ackUa2_of_C l nx sn una

theorem ackC_idem_erase (l : List Segment) (nx sn una : ℕ)
    (hs : l.Pairwise (fun a b => a.sn < b.sn)) :
    (ackC (ackC l nx sn una) nx sn una).map eraseFa = (ackC l nx sn una).map eraseFa := by
  rw [ackC]
  rw [ackB_idem l nx sn una hs, ackUa2_idem l nx sn una hs]
  split
  · rfl
  · exact fastack_go_erase sn _

theorem ackRtt_shape (x : Kcp) (ts : ℕ) :
    ∃ a b c : ℕ, ackRtt x ts = { x with rx_srtt := a, rx_rttval := b, rx_rto := c } := by
  unfold ackRtt
  split
  · exact ⟨_, _, _, rfl⟩
  · exact ⟨x.rx_srtt, x.rx_rttval, x.rx_rto, rfl⟩

theorem inputCwnd_id (u : ℕ) (x : Kcp) (h : ¬ x.snd_una > u) : inputCwnd u x = x := by
  simp only [inputCwnd]
  rw [if_neg (fun hc => h hc.1)]

theorem ackAbsorb_eq (k : Kcp) (wnd ts sn una : ℕ) :
    ∃ (a b c : ℕ) (ci : ℕ × ℕ),
      ackAbsorb k wnd ts sn una =
        { k with
          rmt_wnd := wnd
          snd_buf := ackC k.snd_buf k.snd_nxt sn una
          snd_una := ackUa2 k.snd_buf k.snd_nxt sn una
          rx_srtt := a
          rx_rttval := b
          rx_rto := c
          cwnd := ci.1
          incr := ci.2 } := by
  obtain ⟨a, b, c, hR⟩ :=
    ackRtt_shape (ikcp_shrink_buf (ikcp_parse_una { k with rmt_wnd := wnd } una)) ts
  refine ⟨a, b, c,
    ((inputCwnd k.snd_una (ikcp_parse_fastack (ikcp_shrink_buf (ikcp_parse_ack { ikcp_shrink_buf (ikcp_parse_una { k with rmt_wnd := wnd } una) with rx_srtt := a, rx_rttval := b, rx_rto := c } sn)) sn)).cwnd,
      (inputCwnd k.snd_una (ikcp_parse_fastack (ikcp_shrink_buf (ikcp_parse_ack { ikcp_shrink_buf (ikcp_parse_una { k with rmt_wnd := wnd } una) with rx_srtt := a, rx_rttval := b, rx_rto := c } sn)) sn)).incr), ?_⟩
  unfold ackAbsorb ackBranchK
  rw [hR]
  rfl

theorem ackAbsorb_nogrow (k : Kcp) (wnd ts sn una : ℕ)
    (h : ackUa2 k.snd_buf k.snd_nxt sn una ≤ k.snd_una) :
    ∃ a b c : ℕ,
      ackAbsorb k wnd ts sn una =
        { k with
          rmt_wnd := wnd
          snd_buf := ackC k.snd_buf k.snd_nxt sn una
          snd_una := ackUa2 k.snd_buf k.snd_nxt sn una
          rx_srtt := a
          rx_rttval := b
          rx_rto := c } := by
  obtain ⟨a, b, c, hR⟩ :=
    ackRtt_shape (ikcp_shrink_buf (ikcp_parse_una { k with rmt_wnd := wnd } una)) ts
  refine ⟨a, b, c, ?_⟩
  unfold ackAbsorb ackBranchK
  rw [hR]
  rw [inputCwnd_id k.snd_una
    (ikcp_parse_fastack (ikcp_shrink_buf (ikcp_parse_ack { ikcp_shrink_buf (ikcp_parse_una { k with rmt_wnd := wnd } una) with rx_srtt := a, rx_rttval := b, rx_rto := c } sn)) sn)
    (Nat.not_lt.mpr h)]
  rfl

/-- Claim C3 amended: delivering the same well-formed zero-payload ACK
datagram twice (accepted both times, `Ok(24)`) leaves the control block in
the same state as delivering it once **except** for the RTT-estimator fields
`rx_srtt`, `rx_rttval`, `rx_rto` (the duplicate RTT sample is absorbed again)
and the per-segment `fastack` skip-counters in `snd_buf` (duplicate ACKs drive
fast retransmit); in particular `snd_una`, the segments of `snd_buf`, `cwnd`
and `incr` are unchanged by the second delivery.  `snd_buf` is assumed sorted
by strictly increasing `sn` (spec invariant 1). -/
theorem C3_double_ack_idempotent_modulo (k : Kcp) (wnd ts sn una : ℕ)
    (hc : k.conv < 4294967296) (hw : wnd < 65536) (hts : ts < 4294967296)
    (hsn : sn < 4294967296) (hu : una < 4294967296)
    (hsorted : k.snd_buf.Pairwise (fun a b => a.sn < b.sn)) :
    (ikcp_input k (ackBytes k.conv wnd ts sn una)).2 = .ok 24 ∧
    (ikcp_input (ikcp_input k (ackBytes k.conv wnd ts sn una)).1
      (ackBytes k.conv wnd ts sn una)).2 = .ok 24 ∧
    eraseVolatile (ikcp_input (ikcp_input k (ackBytes k.conv wnd ts sn una)).1
        (ackBytes k.conv wnd ts sn una)).1 =
      eraseVolatile (ikcp_input k (ackBytes k.conv wnd ts sn una)).1 := by
  have h1 := input_ack_eq k wnd ts sn una hc hw hts hsn hu
  obtain ⟨a1, b1, c1, ci1, hs1⟩ := ackAbsorb_eq k wnd ts sn una
  have hconv : (ackAbsorb k wnd ts sn una).conv = k.conv := by rw [hs1]
  have h2 := input_ack_eq (ackAbsorb k wnd ts sn una) wnd ts sn una
    (by rw [hconv]; exact hc) hw hts hsn hu
  rw [hconv] at h2
  refine ⟨by rw [h1], ?_, ?_⟩
  · rw [h1]
    show (ikcp_input (ackAbsorb k wnd ts sn una) (ackBytes k.conv wnd ts sn una)).2 = .ok 24
    rw [h2]
  · rw [h1]
    show eraseVolatile (ikcp_input (ackAbsorb k wnd ts sn una)
        (ackBytes k.conv wnd ts sn una)).1 = eraseVolatile (ackAbsorb k wnd ts sn una)
    rw [h2]
    show eraseVolatile (ackAbsorb (ackAbsorb k wnd ts sn una) wnd ts sn una) =
      eraseVolatile (ackAbsorb k wnd ts sn una)
    have hgrow : ackUa2 (ackAbsorb k wnd ts sn una).snd_buf
        (ackAbsorb k wnd ts sn una).snd_nxt sn una ≤ (ackAbsorb k wnd ts sn una).snd_una := by
      rw [hs1]
      exact le_of_eq (ackUa2_idem k.snd_buf k.snd_nxt sn una hsorted)
    obtain ⟨a2, b2, c2, hs2⟩ := ackAbsorb_nogrow (ackAbsorb k wnd ts sn una) wnd ts sn una hgrow
    rw [hs2, hs1]
    apply Kcp.ext
    all_goals first
      | rfl
      | exact ackUa2_idem k.snd_buf k.snd_nxt sn una hsorted
      | exact ackC_idem_erase k.snd_buf k.snd_nxt sn una hsorted

/-- witness for `C3_double_ack_idempotent_modulo` at the concrete state
`c3base` with the all-zero ACK datagram. -/
theorem C3_double_ack_idempotent_modulo_witness :
    (ikcp_input c3base (ackBytes c3base.conv 0 0 0 0)).2 = .ok 24 ∧
    (ikcp_input (ikcp_input c3base (ackBytes c3base.conv 0 0 0 0)).1
      (ackBytes c3base.conv 0 0 0 0)).2 = .ok 24 ∧
    eraseVolatile (ikcp_input (ikcp_input c3base (ackBytes c3base.conv 0 0 0 0)).1
        (ackBytes c3base.conv 0 0 0 0)).1 =
      eraseVolatile (ikcp_input c3base (ackBytes c3base.conv 0 0 0 0)).1 :=
  C3_double_ack_idempotent_modulo c3base 0 0 0 0 (by decide) (by decide) (by decide)
    (by decide) (by decide) (by decide)

end KcpRs
